import Mathlib

/-!
Verification of the XPBD constraint-solver core of a cloth / soft-body
simulator.  The two simulators (a cloth sheet with stretch/shear/bending
constraints and self-collision, and a tetrahedral soft body with edge and
volume constraints) are shallowly embedded here: state is a record of
parallel lists, the per-frame loops become folds, and the IEEE binary32
scalars of the source are modelled by exact rationals.  Square roots are
abstracted by an explicit function parameter `sq : ℚ → ℚ`, so that every
definition stays executable; theorems that depend on metric properties of
the square root take them as hypotheses on the values actually used.
A separate, self-contained model of binary32 round-to-nearest-even
(`roundF32`) is used for the claims that are explicitly about binary32
equality.
-/

set_option allowUnsafeReducibility true in
attribute [semireducible] Rat.add Rat.sub Rat.mul Rat.inv

namespace XPBD

/-- A 3-vector of exact rationals, mirroring `glam::Vec3` (binary32 in the
source) componentwise. -/
structure Vec3 where
  x : ℚ
  y : ℚ
  z : ℚ
deriving DecidableEq

/-- Componentwise vector addition. -/
def Vec3.add (a b : Vec3) : Vec3 := ⟨a.x + b.x, a.y + b.y, a.z + b.z⟩

/-- Componentwise vector subtraction. -/
def Vec3.sub (a b : Vec3) : Vec3 := ⟨a.x - b.x, a.y - b.y, a.z - b.z⟩

/-- Componentwise negation. -/
def Vec3.neg (a : Vec3) : Vec3 := ⟨-a.x, -a.y, -a.z⟩

/-- Scalar multiplication on the right, as in `v * s` of the source. -/
def Vec3.smul (a : Vec3) (s : ℚ) : Vec3 := ⟨a.x * s, a.y * s, a.z * s⟩

/-- Scalar division, as in `v /= len` of the source. -/
def Vec3.divScalar (a : Vec3) (s : ℚ) : Vec3 := ⟨a.x / s, a.y / s, a.z / s⟩

/-- Dot product. -/
def Vec3.dot (a b : Vec3) : ℚ := a.x * b.x + a.y * b.y + a.z * b.z

/-- Cross product, in the component order used by `glam`. -/
def Vec3.cross (a b : Vec3) : Vec3 :=
  ⟨a.y * b.z - a.z * b.y, a.z * b.x - a.x * b.z, a.x * b.y - a.y * b.x⟩

/-- Squared Euclidean norm, `Vec3::length_squared`. -/
def Vec3.lengthSq (a : Vec3) : ℚ := a.x * a.x + a.y * a.y + a.z * a.z

/-- The zero vector, `Vec3::ZERO`. -/
def Vec3.zero : Vec3 := ⟨0, 0, 0⟩

/-- The gravity constant `GRAVITY = (0, -10, 0)` shared by both source files. -/
def GRAVITY : Vec3 := ⟨0, -10, 0⟩

/-- Indexing into a position/velocity table; in-bounds accesses (the only
ones the source performs) agree with the source's `self.pos[i]`. -/
def getV (l : List Vec3) (i : ℕ) : Vec3 := l.getD i Vec3.zero

/-- Indexing into a scalar table such as `inv_mass`. -/
def getQ (l : List ℚ) (i : ℕ) : ℚ := l.getD i 0

/-- Indexing into an index table such as `adj_ids`. -/
def getN (l : List ℕ) (i : ℕ) : ℕ := l.getD i 0

/-- Newton iteration for natural square roots, run on explicit fuel so that
the definition is structurally recursive and kernel-reducible. -/
def natSqrtIter : ℕ → ℕ → ℕ → ℕ
  | 0, _, g => g
  | f + 1, n, g =>
    let next := (g + n / g) / 2
    if next < g then natSqrtIter f n next else g

/-- Integer square root (rounded down), used to build exact rational square
roots for concrete witness states. -/
def natSqrt (n : ℕ) : ℕ := if n ≤ 1 then n else natSqrtIter 200 n (n / 2)

/-- A concrete square-root function on ℚ: exact whenever the reduced
numerator and denominator are perfect squares, which is the case at every
concrete state used below.  It instantiates the abstract `sq` parameter. -/
def ratSqrt (q : ℚ) : ℚ := mkRat (Int.ofNat (natSqrt q.num.toNat)) (natSqrt q.den)

/-- Kind of a cloth constraint, from `ConstraintKind`; `BENDING` is the
`#[default]` variant. -/
inductive ConstraintKind where
  | STRETCH
  | SHEAR
  | BENDING
deriving DecidableEq

/-- A cloth distance constraint, from `struct Constraint`. -/
structure Constraint where
  ids : ℕ × ℕ
  kind : ConstraintKind
  restLen : ℚ
deriving DecidableEq

/-- The `Default` instance of `Constraint`: ids `(0,0)`, default kind
`BENDING`, rest length `0.0`. -/
def defaultConstraint : Constraint := ⟨(0, 0), ConstraintKind.BENDING, 0⟩

/-- The cloth simulator state, from `struct Cloth` (scratch vectors `grad`,
`grad1`, `grad2` are function-local temporaries here; the spatial hash's
output tables are passed to `simulate` explicitly). -/
structure Cloth where
  numParticles : ℕ
  numSubsteps : ℕ
  dt : ℚ
  invDt : ℚ
  maxVel : ℚ
  pos : List Vec3
  prev : List Vec3
  restPos : List Vec3
  vel : List Vec3
  invMass : List ℚ
  thickness : ℚ
  handleCollisions : Bool
  grabInvMass : ℚ
  grabId : Option ℕ
  constraints : List Constraint
  stretchCompliance : ℚ
  shearCompliance : ℚ
  bendingCompliance : ℚ
deriving DecidableEq

/-- Compliance selection by constraint kind, from `Cloth::get_compliance`. -/
def Cloth.getCompliance (c : Cloth) (cons : Constraint) : ℚ :=
  match cons.kind with
  | ConstraintKind.STRETCH => c.stretchCompliance
  | ConstraintKind.SHEAR => c.shearCompliance
  | ConstraintKind.BENDING => c.bendingCompliance

/-- Body of the integration loop of `Cloth::simulate` for one particle
index: skip kinematic particles, apply gravity, clamp the speed to
`max_vel`, save `prev` and advance `pos`. -/
def Cloth.integrateStep (sq : ℚ → ℚ) (c : Cloth) (i : ℕ) : Cloth :=
  if getQ c.invMass i = 0 then c
  else
    let v1 := (getV c.vel i).add (GRAVITY.smul c.dt)
    let v := sq v1.lengthSq
    let v2 := if v > c.maxVel then v1.smul (c.maxVel / v) else v1
    let c := { c with vel := c.vel.set i v2 }
    let c := { c with prev := c.prev.set i (getV c.pos i) }
    { c with pos := c.pos.set i ((getV c.pos i).add (v2.smul c.dt)) }

/-- The integration phase of `Cloth::simulate`. -/
def Cloth.integrate (sq : ℚ → ℚ) (c : Cloth) : Cloth :=
  (List.range c.numParticles).foldl (Cloth.integrateStep sq) c

/-- Body of `Cloth::solve_ground_collisions` for one particle index. -/
def Cloth.groundStep (c : Cloth) (i : ℕ) : Cloth :=
  if getQ c.invMass i = 0 then c
  else if (getV c.pos i).y < 1 / 2 * c.thickness then
    let damping : ℚ := 1
    let grad := (getV c.pos i).sub (getV c.prev i)
    let p1 := (getV c.pos i).add (grad.smul (-damping))
    { c with pos := c.pos.set i { p1 with y := 1 / 2 * c.thickness } }
  else c

/-- `Cloth::solve_ground_collisions`. -/
def Cloth.solveGroundCollisions (c : Cloth) : Cloth :=
  (List.range c.numParticles).foldl Cloth.groundStep c

/-- Projection of a single distance constraint, the loop body of
`Cloth::solve_constraints`. -/
def Cloth.solveConstraintStep (sq : ℚ → ℚ) (c : Cloth) (cons : Constraint) : Cloth :=
  let id0 := cons.ids.1
  let id1 := cons.ids.2
  let w0 := getQ c.invMass id0
  let w1 := getQ c.invMass id1
  let w := w0 + w1
  if w = 0 then c
  else
    let grad := (getV c.pos id0).sub (getV c.pos id1)
    let len := sq grad.lengthSq
    if len = 0 then c
    else
      let grad := grad.divScalar len
      let cc := len - cons.restLen
      let alpha := c.getCompliance cons * c.invDt * c.invDt
      let s := -cc / (w + alpha)
      let c := { c with pos := c.pos.set id0 ((getV c.pos id0).add ((grad.smul s).smul w0)) }
      { c with pos := c.pos.set id1 ((getV c.pos id1).add ((grad.smul (-s)).smul w1)) }

/-- `Cloth::solve_constraints`: a Gauss-Seidel sweep over the whole
pre-allocated constraint array. -/
def Cloth.solveConstraints (sq : ℚ → ℚ) (c : Cloth) : Cloth :=
  c.constraints.foldl (Cloth.solveConstraintStep sq) c

/-- Narrow-phase handling of one candidate pair `(id0, id1)`, the inner
loop body of `Cloth::solve_collisions`.  Note that the source binds the
plain Euclidean length of the rest-position difference to `rest_dist_sq`
and compares it against squared quantities; this is reproduced verbatim. -/
def Cloth.solveCollisionPair (sq : ℚ → ℚ) (c : Cloth) (id0 id1 : ℕ) : Cloth :=
  if getQ c.invMass id1 = 0 then c
  else
    let thicknessSq := c.thickness * c.thickness
    let grad := (getV c.pos id1).sub (getV c.pos id0)
    let distSq := grad.lengthSq
    if distSq > thicknessSq ∨ distSq = 0 then c
    else
      let restDistSq := sq ((getV c.restPos id0).sub (getV c.restPos id1)).lengthSq
      let minDist0 := c.thickness
      if distSq > restDistSq then c
      else
        let minDist := if restDistSq < thicknessSq then sq restDistSq else minDist0
        let dist := sq distSq
        let grad := grad.smul ((minDist - dist) / dist)
        let c := { c with pos := c.pos.set id0 ((getV c.pos id0).add (grad.smul (-(1 / 2)))) }
        let c := { c with pos := c.pos.set id1 ((getV c.pos id1).add (grad.smul (1 / 2))) }
        let g0 := (getV c.pos id0).sub (getV c.prev id0)
        let g1 := (getV c.pos id1).sub (getV c.prev id1)
        let g2 := (g0.add g1).smul (1 / 2)
        let d0 := g2.sub g0
        let d1 := g2.sub g1
        let friction : ℚ := 0
        let c := { c with pos := c.pos.set id0 ((getV c.pos id0).add (d0.smul friction)) }
        { c with pos := c.pos.set id1 ((getV c.pos id1).add (d1.smul friction)) }

/-- Body of the outer loop of `Cloth::solve_collisions`: skip kinematic
particles, then walk the CSR adjacency slice supplied by the hash. -/
def Cloth.collisionOuterStep (sq : ℚ → ℚ) (fa ai : List ℕ) (c : Cloth) (i : ℕ) : Cloth :=
  if getQ c.invMass i = 0 then c
  else
    (List.range' (getN fa i) (getN fa (i + 1) - getN fa i)).foldl
      (fun s j => Cloth.solveCollisionPair sq s i (getN ai j)) c

/-- `Cloth::solve_collisions` over the hash tables `fa = first_adj_id` and
`ai = adj_ids`. -/
def Cloth.solveCollisions (sq : ℚ → ℚ) (fa ai : List ℕ) (c : Cloth) : Cloth :=
  (List.range c.numParticles).foldl (Cloth.collisionOuterStep sq fa ai) c

/-- Body of the velocity-recovery loop of `Cloth::simulate`. -/
def Cloth.updateVelStep (c : Cloth) (i : ℕ) : Cloth :=
  if getQ c.invMass i = 0 then c
  else { c with vel := c.vel.set i (((getV c.pos i).sub (getV c.prev i)).smul c.invDt) }

/-- The velocity-recovery phase of `Cloth::simulate`. -/
def Cloth.updateVelocities (c : Cloth) : Cloth :=
  (List.range c.numParticles).foldl Cloth.updateVelStep c

/-- One substep of `Cloth::simulate`: integrate, ground clamp, constraint
projection, optional self-collision projection, velocity recovery. -/
def Cloth.substep (sq : ℚ → ℚ) (fa ai : List ℕ) (c : Cloth) : Cloth :=
  let c := c.integrate sq
  let c := c.solveGroundCollisions
  let c := c.solveConstraints sq
  let c := if c.handleCollisions then c.solveCollisions sq fa ai else c
  c.updateVelocities

/-- Modelled from the spec: the spatial hash (`hashing_11.rs`, an external
collaborator specified only through its `create`/`query_all` contract) fills
the tables `first_adj_id` and `adj_ids` once per frame; they are taken here
as arbitrary inputs `fa`, `ai`, which covers every table the hash contract
can produce.  `Cloth::simulate` then runs `num_substeps` substeps. -/
def Cloth.simulate (sq : ℚ → ℚ) (fa ai : List ℕ) (c : Cloth) : Cloth :=
  (List.range c.numSubsteps).foldl (fun s _ => Cloth.substep sq fa ai s) c

/-- The value `f32::MAX = (2^24 - 1) * 2^104`, the initial best squared
distance in `start_grab` (built with `mkRat` to stay kernel-evaluable). -/
def F32_MAX : ℚ := mkRat (Int.ofNat ((2 ^ 24 - 1) * 2 ^ 104)) 1

/-- The nearest-particle search shared verbatim by `Cloth::start_grab` and
`SoftBody::start_grab`: fold over all particle indices keeping the least
squared distance seen so far and the index attaining it. -/
def findNearest (p : Vec3) (pos : List Vec3) (n : ℕ) : ℚ × Option ℕ :=
  (List.range n).foldl
    (fun acc i =>
      let d2 := (p.sub (getV pos i)).lengthSq
      if d2 < acc.1 then (d2, some i) else acc)
    (F32_MAX, none)

/-- `Cloth::start_grab`. -/
def Cloth.startGrab (c : Cloth) (p : Vec3) : Cloth :=
  let found := (findNearest p c.pos c.numParticles).2
  match found with
  | none => { c with grabId := none }
  | some i =>
    { c with grabId := some i,
             grabInvMass := getQ c.invMass i,
             invMass := c.invMass.set i 0,
             pos := c.pos.set i p }

/-- `Cloth::move_grabbed`. -/
def Cloth.moveGrabbed (c : Cloth) (p : Vec3) : Cloth :=
  match c.grabId with
  | none => c
  | some i => { c with pos := c.pos.set i p }

/-- `Cloth::end_grab`. -/
def Cloth.endGrab (c : Cloth) (v : Vec3) : Cloth :=
  match c.grabId with
  | none => { c with grabId := none }
  | some i =>
    { c with invMass := c.invMass.set i c.grabInvMass,
             vel := c.vel.set i v,
             grabId := none }

/-- A tetrahedron's four vertex indices, one `[usize; 4]` entry of
`tet_ids`. -/
structure Tet where
  a : ℕ
  b : ℕ
  c : ℕ
  d : ℕ
deriving DecidableEq

/-- `tet[j]` of the source. -/
def Tet.nth (t : Tet) : ℕ → ℕ
  | 0 => t.a
  | 1 => t.b
  | 2 => t.c
  | _ => t.d

/-- The placeholder tetrahedron used for out-of-bounds `getD`. -/
def defaultTet : Tet := ⟨0, 0, 0, 0⟩

/-- The opposite-face ordering `VOL_ID_ORDER`. -/
def volIdOrder : ℕ → ℕ × ℕ × ℕ
  | 0 => (1, 3, 2)
  | 1 => (0, 2, 3)
  | 2 => (0, 3, 1)
  | _ => (0, 1, 2)

/-- The soft-body simulator state, from `struct SoftBody` (the stored mesh
copy, used only by `reset`-style host code, is omitted). -/
structure SoftBody where
  numParticles : ℕ
  numTets : ℕ
  numSubsteps : ℕ
  dt : ℚ
  invDt : ℚ
  tetIds : List Tet
  edgeIds : List ℕ
  pos : List Vec3
  prev : List Vec3
  vel : List Vec3
  invMass : List ℚ
  restVol : List ℚ
  edgeLens : List ℚ
  grabInvMass : ℚ
  grabId : Option ℕ
  edgeCompliance : ℚ
  volCompliance : ℚ
deriving DecidableEq

/-- `SoftBody::get_tet_volume`: the signed volume
`((p1 - p0) x (p2 - p0)) . (p3 - p0) / 6` of tet `i` at the current
positions. -/
def SoftBody.getTetVolume (s : SoftBody) (i : ℕ) : ℚ :=
  let tet := s.tetIds.getD i defaultTet
  let p0 := getV s.pos tet.a
  let p1 := getV s.pos tet.b
  let p2 := getV s.pos tet.c
  let p3 := getV s.pos tet.d
  ((p1.sub p0).cross (p2.sub p0)).dot (p3.sub p0) / 6

/-- Body of the mass-distribution loop of `SoftBody::init` for tet `i`:
record the rest volume and add the per-vertex inverse mass
`1 / (vol / 4)` (or `0` for non-positive volume) to all four vertices. -/
def SoftBody.initTetStep (s : SoftBody) (i : ℕ) : SoftBody :=
  let vol := s.getTetVolume i
  let s := { s with restVol := s.restVol.set i vol }
  let pm := if vol > 0 then 1 / (vol / 4) else 0
  let tet := s.tetIds.getD i defaultTet
  let s := { s with invMass := s.invMass.set tet.a (getQ s.invMass tet.a + pm) }
  let s := { s with invMass := s.invMass.set tet.b (getQ s.invMass tet.b + pm) }
  let s := { s with invMass := s.invMass.set tet.c (getQ s.invMass tet.c + pm) }
  { s with invMass := s.invMass.set tet.d (getQ s.invMass tet.d + pm) }

/-- Body of the edge-length loop of `SoftBody::init` for edge `i`. -/
def SoftBody.initEdgeStep (sq : ℚ → ℚ) (s : SoftBody) (i : ℕ) : SoftBody :=
  let id0 := getN s.edgeIds (2 * i)
  let id1 := getN s.edgeIds (2 * i + 1)
  { s with edgeLens := s.edgeLens.set i (sq ((getV s.pos id0).sub (getV s.pos id1)).lengthSq) }

/-- `SoftBody::init`. -/
def SoftBody.init (sq : ℚ → ℚ) (s : SoftBody) : SoftBody :=
  let s := (List.range s.numTets).foldl SoftBody.initTetStep s
  (List.range s.edgeLens.length).foldl (SoftBody.initEdgeStep sq) s

/-- Body of `SoftBody::pre_solve` for one particle: gravity kick, save
`prev`, advance, and sticky ground clamp at `y = 0`. -/
def SoftBody.preSolveStep (s : SoftBody) (i : ℕ) : SoftBody :=
  if getQ s.invMass i = 0 then s
  else
    let v1 := (getV s.vel i).add (GRAVITY.smul s.dt)
    let s := { s with vel := s.vel.set i v1 }
    let prev1 := getV s.pos i
    let s := { s with prev := s.prev.set i prev1 }
    let p1 := prev1.add (v1.smul s.dt)
    if p1.y < 0 then
      { s with pos := s.pos.set i { prev1 with y := 0 } }
    else
      { s with pos := s.pos.set i p1 }

/-- `SoftBody::pre_solve`. -/
def SoftBody.preSolve (s : SoftBody) : SoftBody :=
  (List.range s.numParticles).foldl SoftBody.preSolveStep s

/-- Projection of one soft-body edge constraint, the loop body of
`SoftBody::solve_edges` (the source hoists `alpha` out of the loop; it is
recomputed here from fields the loop never modifies). -/
def SoftBody.solveEdgeStep (sq : ℚ → ℚ) (s : SoftBody) (i : ℕ) : SoftBody :=
  let alpha := s.edgeCompliance * s.invDt * s.invDt
  let id0 := getN s.edgeIds (2 * i)
  let id1 := getN s.edgeIds (2 * i + 1)
  let w0 := getQ s.invMass id0
  let w1 := getQ s.invMass id1
  let w := w0 + w1
  if w = 0 then s
  else
    let temp := (getV s.pos id0).sub (getV s.pos id1)
    let len := sq temp.lengthSq
    if len = 0 then s
    else
      let temp := temp.divScalar len
      let restLen := getQ s.edgeLens i
      let cc := len - restLen
      let sc := -cc / (w + alpha)
      let s := { s with pos := s.pos.set id0 ((getV s.pos id0).add ((temp.smul sc).smul w0)) }
      { s with pos := s.pos.set id1 ((getV s.pos id1).add ((temp.smul (-sc)).smul w1)) }

/-- `SoftBody::solve_edges`. -/
def SoftBody.solveEdges (sq : ℚ → ℚ) (s : SoftBody) : SoftBody :=
  (List.range s.edgeLens.length).foldl (SoftBody.solveEdgeStep sq) s

/-- One gradient of the volume constraint: for slot `j` with opposite face
`(o0, o1, o2)` of `VOL_ID_ORDER`, the vector
`((pos[tet[o1]] - pos[tet[o0]]) x (pos[tet[o2]] - pos[tet[o0]])) / 6`. -/
def SoftBody.volGrad (s : SoftBody) (tet : Tet) (j : ℕ) : Vec3 :=
  let o := volIdOrder j
  let q0 := getV s.pos (tet.nth o.1)
  let q1 := getV s.pos (tet.nth o.2.1)
  let q2 := getV s.pos (tet.nth o.2.2)
  ((q1.sub q0).cross (q2.sub q0)).divScalar 6

/-- Projection of one volume constraint, the loop body of
`SoftBody::solve_volumes` with the fixed `j = 0..4` loops unrolled. -/
def SoftBody.volumeStep (s : SoftBody) (i : ℕ) : SoftBody :=
  let alpha := s.volCompliance * s.invDt * s.invDt
  let tet := s.tetIds.getD i defaultTet
  let g0 := s.volGrad tet 0
  let g1 := s.volGrad tet 1
  let g2 := s.volGrad tet 2
  let g3 := s.volGrad tet 3
  let w := 0 + getQ s.invMass tet.a * g0.lengthSq + getQ s.invMass tet.b * g1.lengthSq
         + getQ s.invMass tet.c * g2.lengthSq + getQ s.invMass tet.d * g3.lengthSq
  if w = 0 then s
  else
    let vol := s.getTetVolume i
    let restVol := getQ s.restVol i
    let cc := vol - restVol
    let sc := -cc / (w + alpha)
    let s := { s with pos := s.pos.set tet.a ((getV s.pos tet.a).add ((g0.smul sc).smul (getQ s.invMass tet.a))) }
    let s := { s with pos := s.pos.set tet.b ((getV s.pos tet.b).add ((g1.smul sc).smul (getQ s.invMass tet.b))) }
    let s := { s with pos := s.pos.set tet.c ((getV s.pos tet.c).add ((g2.smul sc).smul (getQ s.invMass tet.c))) }
    { s with pos := s.pos.set tet.d ((getV s.pos tet.d).add ((g3.smul sc).smul (getQ s.invMass tet.d))) }

/-- `SoftBody::solve_volumes`. -/
def SoftBody.solveVolumes (s : SoftBody) : SoftBody :=
  (List.range s.numTets).foldl SoftBody.volumeStep s

/-- Body of `SoftBody::post_solve` for one particle. -/
def SoftBody.postSolveStep (s : SoftBody) (i : ℕ) : SoftBody :=
  if getQ s.invMass i = 0 then s
  else { s with vel := s.vel.set i (((getV s.pos i).sub (getV s.prev i)).smul s.invDt) }

/-- `SoftBody::post_solve`. -/
def SoftBody.postSolve (s : SoftBody) : SoftBody :=
  (List.range s.numParticles).foldl SoftBody.postSolveStep s

/-- One substep of `SoftBody::simulate`: `pre_solve`, `solve` (edges then
volumes), `post_solve`. -/
def SoftBody.substep (sq : ℚ → ℚ) (s : SoftBody) : SoftBody :=
  (((s.preSolve).solveEdges sq).solveVolumes).postSolve

/-- `SoftBody::simulate`. -/
def SoftBody.simulate (sq : ℚ → ℚ) (s : SoftBody) : SoftBody :=
  (List.range s.numSubsteps).foldl (fun x _ => SoftBody.substep sq x) s

/-- `SoftBody::squash`: force all `pos.y` to `0.5`. -/
def SoftBody.squash (s : SoftBody) : SoftBody :=
  (List.range s.numParticles).foldl
    (fun x i => { x with pos := x.pos.set i { getV x.pos i with y := 1 / 2 } }) s

/-- `SoftBody::translate` in the exact-arithmetic model: add the
displacement to `pos` and `prev` of every particle. -/
def SoftBody.translate (s : SoftBody) (d : Vec3) : SoftBody :=
  (List.range s.numParticles).foldl
    (fun x i =>
      let x := { x with pos := x.pos.set i ((getV x.pos i).add d) }
      { x with prev := x.prev.set i ((getV x.prev i).add d) }) s

/-- `SoftBody::start_grab`. -/
def SoftBody.startGrab (s : SoftBody) (p : Vec3) : SoftBody :=
  let found := (findNearest p s.pos s.numParticles).2
  match found with
  | none => { s with grabId := none }
  | some i =>
    { s with grabId := some i,
             grabInvMass := getQ s.invMass i,
             invMass := s.invMass.set i 0,
             pos := s.pos.set i p }

/-- `SoftBody::move_grabbed`. -/
def SoftBody.moveGrabbed (s : SoftBody) (p : Vec3) : SoftBody :=
  match s.grabId with
  | none => s
  | some i => { s with pos := s.pos.set i p }

/-- `SoftBody::end_grab`. -/
def SoftBody.endGrab (s : SoftBody) (v : Vec3) : SoftBody :=
  match s.grabId with
  | none => { s with grabId := none }
  | some i =>
    { s with invMass := s.invMass.set i s.grabInvMass,
             vel := s.vel.set i v,
             grabId := none }

/-- Fuel-driven floor of the base-2 logarithm of a natural number,
structurally recursive so that the kernel can evaluate it. -/
def floorLog2Aux : ℕ → ℕ → ℕ
  | 0, _ => 0
  | f + 1, n => if 2 ≤ n then floorLog2Aux f (n / 2) + 1 else 0

/-- Floor of the base-2 logarithm (0 on inputs 0 and 1).  The fuel 400
covers every number with at most 120 decimal digits, far beyond anything
arising here. -/
def floorLog2 (n : ℕ) : ℕ := floorLog2Aux 400 n

/-- The rational value of an integer power of two (built with `mkRat` so
that the kernel evaluates it without unary numeral casts). -/
def pow2 : ℤ → ℚ
  | Int.ofNat n => mkRat (Int.ofNat (2 ^ n)) 1
  | Int.negSucc n => mkRat 1 (2 ^ (n + 1))

/-- Floor of a rational, computed directly from the representation. -/
def ratFloor (q : ℚ) : ℤ := q.num.fdiv q.den

/-- Round a rational to an integer, ties to even. -/
def roundHalfEven (q : ℚ) : ℤ :=
  let f := ratFloor q
  let frac := q - mkRat f 1
  if frac < 1 / 2 then f
  else if 1 / 2 < frac then f + 1
  else if f % 2 = 0 then f else f + 1

/-- Floor of the base-2 logarithm of a positive rational. -/
def ratFloorLog2 (a : ℚ) : ℤ :=
  let cand : ℤ := (floorLog2 a.num.toNat : ℤ) - (floorLog2 a.den : ℤ)
  if pow2 cand ≤ a then cand else cand - 1

/-- The exact rational value of a rational rounded to IEEE binary32
(round to nearest, ties to even), with gradual underflow to subnormals.
Faithful on the whole finite range; overflow is not modelled because no
value in this development comes near it. -/
def roundF32 (q : ℚ) : ℚ :=
  if q = 0 then 0
  else
    let a := |q|
    let e := ratFloorLog2 a
    let ep := max e (-126)
    let m := roundHalfEven (a * pow2 (23 - ep))
    let r := mkRat m 1 * pow2 (ep - 23)
    if q > 0 then r else -r

/-- Binary32 addition: the exact sum, correctly rounded. -/
def add32 (a b : ℚ) : ℚ := roundF32 (a + b)

/-- Binary32 multiplication: the exact product, correctly rounded. -/
def mul32 (a b : ℚ) : ℚ := roundF32 (a * b)

/-- Binary32 division: the exact quotient, correctly rounded. -/
def div32 (a b : ℚ) : ℚ := roundF32 (a / b)

/-- The constant `TIME_STEP = 1.0 / 60.0`, a binary32 division evaluated at
compile time by `rustc`. -/
def TIME_STEP32 : ℚ := div32 1 60

/-- `set_solver_substeps(n)` computes `dt = TIME_STEP / num_substeps as f32`
in binary32; the very same expression appears in `Cloth::set_solver_substeps`
and in `SoftBody::set_solver_substeps` (and in both constructors). -/
def setSubstepsDt32 (n : ℕ) : ℚ := div32 TIME_STEP32 (roundF32 (mkRat (Int.ofNat n) 1))

/-- The product `dt * num_substeps` recomputed in binary32 from the stored
`dt`, the quantity the spec asserts equals `TIME_STEP` exactly. -/
def dtTimesSubsteps32 (n : ℕ) : ℚ :=
  mul32 (setSubstepsDt32 n) (roundF32 (mkRat (Int.ofNat n) 1))

/-- Componentwise binary32 vector addition, the `+=` of `glam::Vec3`. -/
def addV32 (a b : Vec3) : Vec3 := ⟨add32 a.x b.x, add32 a.y b.y, add32 a.z b.z⟩

/-- `SoftBody::translate` at binary32 precision: each `+=` of the source
rounds.  Used for the bit-exactness claim about the translate round trip. -/
def SoftBody.translate32 (s : SoftBody) (d : Vec3) : SoftBody :=
  (List.range s.numParticles).foldl
    (fun x i =>
      let x := { x with pos := x.pos.set i (addV32 (getV x.pos i) d) }
      { x with prev := x.prev.set i (addV32 (getV x.prev i) d) }) s

/-- The XPBD distance projection exactly as worded in the specification
(section 4.1.1): given inverse masses `w0, w1`, endpoint positions
`pa, pb` and the rest length, return the projected endpoint pair. -/
def specDistanceProject (sq : ℚ → ℚ) (compliance invDt w0 w1 : ℚ) (pa pb : Vec3)
    (restLen : ℚ) : Vec3 × Vec3 :=
  let w := w0 + w1
  if w = 0 then (pa, pb)
  else
    let d := pa.sub pb
    let l := sq d.lengthSq
    if l = 0 then (pa, pb)
    else
      let n := d.divScalar l
      let C := l - restLen
      let alpha := compliance * invDt * invDt
      let s := -C / (w + alpha)
      (pa.add (n.smul (s * w0)), pb.sub (n.smul (s * w1)))

/-- The per-tet inverse-mass contribution named by the specification:
`4 / vol` for a tet of strictly positive rest volume, `0` otherwise. -/
def tetContribution (s : SoftBody) (t : ℕ) : ℚ :=
  if s.getTetVolume t > 0 then 4 / s.getTetVolume t else 0

/-- How many of the four vertex slots of a tet refer to particle `i`. -/
def tetVertexCount (tet : Tet) (i : ℕ) : ℕ :=
  (if tet.a = i then 1 else 0) + (if tet.b = i then 1 else 0)
    + (if tet.c = i then 1 else 0) + (if tet.d = i then 1 else 0)

/-- A two-particle cloth whose particle 0 is kinematic, used to instantiate
the kinematic-invariance theorem on concrete data. -/
def clothKin : Cloth :=
  { numParticles := 2, numSubsteps := 1, dt := mkRat 1 600, invDt := 600,
    maxVel := mkRat 6 5,
    pos := [Vec3.zero, ⟨0, mkRat 1 2, 0⟩], prev := [Vec3.zero, ⟨0, mkRat 1 2, 0⟩],
    restPos := [Vec3.zero, ⟨0, mkRat 1 2, 0⟩], vel := [Vec3.zero, Vec3.zero],
    invMass := [0, 1], thickness := mkRat 1 100, handleCollisions := false,
    grabInvMass := 0, grabId := none,
    constraints := [⟨(0, 1), ConstraintKind.STRETCH, mkRat 1 2⟩],
    stretchCompliance := 0, shearCompliance := mkRat 1 10000, bendingCompliance := 1 }

/-- A two-particle soft body whose particle 0 is kinematic. -/
def softKin : SoftBody :=
  { numParticles := 2, numTets := 0, numSubsteps := 1, dt := mkRat 1 600,
    invDt := 600, tetIds := [], edgeIds := [0, 1],
    pos := [Vec3.zero, ⟨0, 1, 0⟩], prev := [Vec3.zero, ⟨0, 1, 0⟩],
    vel := [Vec3.zero, Vec3.zero], invMass := [0, 1], restVol := [],
    edgeLens := [mkRat 1 2], grabInvMass := 0, grabId := none,
    edgeCompliance := 0, volCompliance := 0 }

/-- A soft body with a kinematic particle parked far below the ground plane
and a hard edge to a dynamic particle resting on the ground: one `simulate`
call drags the dynamic particle to `y = -99/10`. -/
def softDeep : SoftBody :=
  { numParticles := 2, numTets := 0, numSubsteps := 1, dt := mkRat 1 600,
    invDt := 600, tetIds := [], edgeIds := [0, 1],
    pos := [⟨0, -10, 0⟩, Vec3.zero], prev := [⟨0, -10, 0⟩, Vec3.zero],
    vel := [Vec3.zero, Vec3.zero], invMass := [0, 1], restVol := [],
    edgeLens := [mkRat 1 10], grabInvMass := 0, grabId := none,
    edgeCompliance := 0, volCompliance := 0 }

/-- A cloth with a kinematic anchor at the origin and a dynamic particle
100 units above it on a hard stretch constraint of rest length 1: one
`simulate` call recovers a velocity of magnitude 59400, vastly above
`max_vel = 6/5`. -/
def clothFar : Cloth :=
  { numParticles := 2, numSubsteps := 1, dt := mkRat 1 600, invDt := 600,
    maxVel := mkRat 6 5,
    pos := [Vec3.zero, ⟨0, 100, 0⟩], prev := [Vec3.zero, ⟨0, 100, 0⟩],
    restPos := [Vec3.zero, ⟨0, 100, 0⟩], vel := [Vec3.zero, Vec3.zero],
    invMass := [0, 1], thickness := mkRat 1 100, handleCollisions := false,
    grabInvMass := 0, grabId := none,
    constraints := [⟨(0, 1), ConstraintKind.STRETCH, 1⟩],
    stretchCompliance := 0, shearCompliance := 0, bendingCompliance := 1 }

/-- A one-particle cloth whose velocity gets clamped during integration. -/
def clothFast : Cloth :=
  { numParticles := 1, numSubsteps := 1, dt := mkRat 1 10, invDt := 10,
    maxVel := 2,
    pos := [⟨0, 5, 0⟩], prev := [⟨0, 5, 0⟩], restPos := [⟨0, 5, 0⟩],
    vel := [⟨0, -2, 0⟩], invMass := [1], thickness := mkRat 1 100,
    handleCollisions := false, grabInvMass := 0, grabId := none,
    constraints := [], stretchCompliance := 0, shearCompliance := 0,
    bendingCompliance := 1 }

/-- A two-particle cloth with one shear constraint, for instantiating the
distance-projection characterization. -/
def clothPair : Cloth :=
  { numParticles := 2, numSubsteps := 1, dt := mkRat 1 600, invDt := 600,
    maxVel := mkRat 6 5,
    pos := [Vec3.zero, ⟨0, 2, 0⟩], prev := [Vec3.zero, ⟨0, 2, 0⟩],
    restPos := [Vec3.zero, ⟨0, 2, 0⟩], vel := [Vec3.zero, Vec3.zero],
    invMass := [1, 1], thickness := mkRat 1 100, handleCollisions := true,
    grabInvMass := 0, grabId := none,
    constraints := [⟨(0, 1), ConstraintKind.SHEAR, 1⟩],
    stretchCompliance := 0, shearCompliance := mkRat 1 10000, bendingCompliance := 1 }

/-- A two-particle soft body with one hard edge, for the soft-body half of
the distance-projection characterization. -/
def softPair : SoftBody :=
  { numParticles := 2, numTets := 0, numSubsteps := 1, dt := mkRat 1 600,
    invDt := 600, tetIds := [], edgeIds := [0, 1],
    pos := [Vec3.zero, ⟨3, 0, 0⟩], prev := [Vec3.zero, ⟨3, 0, 0⟩],
    vel := [Vec3.zero, Vec3.zero], invMass := [1, 2], restVol := [],
    edgeLens := [1], grabInvMass := 0, grabId := none,
    edgeCompliance := 0, volCompliance := 0 }

/-- A two-particle cloth whose particles are within `THICKNESS` of each
other but far apart at rest, for the self-collision narrow phase. -/
def clothClose : Cloth :=
  { numParticles := 2, numSubsteps := 1, dt := mkRat 1 600, invDt := 600,
    maxVel := mkRat 6 5,
    pos := [Vec3.zero, ⟨mkRat 3 1000, mkRat 4 1000, 0⟩],
    prev := [Vec3.zero, ⟨mkRat 3 1000, mkRat 4 1000, 0⟩],
    restPos := [Vec3.zero, ⟨mkRat 1 4, 0, 0⟩], vel := [Vec3.zero, Vec3.zero],
    invMass := [1, 1], thickness := mkRat 1 100, handleCollisions := true,
    grabInvMass := 0, grabId := none, constraints := [],
    stretchCompliance := 0, shearCompliance := 0, bendingCompliance := 1 }

/-- A two-particle cloth with distinct inverse masses and no grab, for the
grab round trip. -/
def clothGrab : Cloth :=
  { numParticles := 2, numSubsteps := 1, dt := mkRat 1 600, invDt := 600,
    maxVel := mkRat 6 5,
    pos := [Vec3.zero, ⟨5, 0, 0⟩], prev := [Vec3.zero, ⟨5, 0, 0⟩],
    restPos := [Vec3.zero, ⟨5, 0, 0⟩], vel := [Vec3.zero, Vec3.zero],
    invMass := [mkRat 1 2, mkRat 1 3], thickness := mkRat 1 100,
    handleCollisions := false, grabInvMass := 0, grabId := none,
    constraints := [], stretchCompliance := 0, shearCompliance := 0,
    bendingCompliance := 1 }

/-- A two-particle soft body with distinct inverse masses and no grab. -/
def softGrab : SoftBody :=
  { numParticles := 2, numTets := 0, numSubsteps := 1, dt := mkRat 1 600,
    invDt := 600, tetIds := [], edgeIds := [],
    pos := [Vec3.zero, ⟨5, 0, 0⟩], prev := [Vec3.zero, ⟨5, 0, 0⟩],
    vel := [Vec3.zero, Vec3.zero], invMass := [mkRat 1 2, mkRat 1 3],
    restVol := [], edgeLens := [], grabInvMass := 0, grabId := none,
    edgeCompliance := 0, volCompliance := 0 }

/-- A one-particle soft body whose position coordinate `2 ^ (-25)` is
absorbed when 1 is added in binary32, breaking the translate round trip. -/
def softTiny : SoftBody :=
  { numParticles := 1, numTets := 0, numSubsteps := 1, dt := 1, invDt := 1,
    tetIds := [], edgeIds := [], pos := [⟨mkRat 1 33554432, 0, 0⟩],
    prev := [Vec3.zero], vel := [Vec3.zero], invMass := [1], restVol := [],
    edgeLens := [], grabInvMass := 0, grabId := none,
    edgeCompliance := 0, volCompliance := 0 }

/-- A four-vertex soft body with one unit tet (rest volume `1/6`) and one
degenerate tet of zero volume, taken in the freshly constructed state where
`inv_mass` is all zeroes, for the `init` mass-distribution theorem. -/
def softTet : SoftBody :=
  { numParticles := 4, numTets := 2, numSubsteps := 1, dt := mkRat 1 600,
    invDt := 600, tetIds := [⟨0, 1, 2, 3⟩, ⟨0, 1, 2, 2⟩], edgeIds := [0, 1],
    pos := [Vec3.zero, ⟨1, 0, 0⟩, ⟨0, 1, 0⟩, ⟨0, 0, 1⟩],
    prev := [Vec3.zero, ⟨1, 0, 0⟩, ⟨0, 1, 0⟩, ⟨0, 0, 1⟩],
    vel := [Vec3.zero, Vec3.zero, Vec3.zero, Vec3.zero],
    invMass := [0, 0, 0, 0], restVol := [0, 0], edgeLens := [0],
    grabInvMass := 0, grabId := none, edgeCompliance := 0, volCompliance := 0 }

/-- A cloth whose constraint array is one generated constraint followed by
two default (unfilled) slots, as `Cloth::new` pre-allocates. -/
def clothPadded : Cloth :=
  { numParticles := 2, numSubsteps := 1, dt := mkRat 1 600, invDt := 600,
    maxVel := mkRat 6 5,
    pos := [Vec3.zero, ⟨0, 2, 0⟩], prev := [Vec3.zero, ⟨0, 2, 0⟩],
    restPos := [Vec3.zero, ⟨0, 2, 0⟩], vel := [Vec3.zero, Vec3.zero],
    invMass := [1, 1], thickness := mkRat 1 100, handleCollisions := false,
    grabInvMass := 0, grabId := none,
    constraints := [⟨(0, 1), ConstraintKind.STRETCH, 1⟩]
      ++ List.replicate 2 defaultConstraint,
    stretchCompliance := 0, shearCompliance := 0, bendingCompliance := 1 }

theorem getD_set_ne {α : Type} (d : α) (l : List α) {i j : ℕ} (v : α) (h : i ≠ j) :
    (l.set i v).getD j d = l.getD j d := by
  induction l generalizing i j with
  | nil => rfl
  | cons a t ih =>
    cases i with
    | zero =>
      cases j with
      | zero => exact absurd rfl h
      | succ j => rfl
    | succ i =>
      cases j with
      | zero => rfl
      | succ j =>
        simpa [List.getD] using ih (i := i) (j := j) (fun hh => h (by rw [hh]))

theorem set_of_length_le {α : Type} (l : List α) {i : ℕ} (v : α) (h : l.length ≤ i) :
    l.set i v = l := by
  induction l generalizing i with
  | nil => rfl
  | cons a t ih =>
    cases i with
    | zero => exact absurd h (by simp)
    | succ i => simpa using ih (by simpa using h)

theorem getD_set_self {α : Type} (d : α) (l : List α) (i : ℕ) (v : α) :
    (l.set i v).getD i d = if i < l.length then v else l.getD i d := by
  induction l generalizing i with
  | nil => simp
  | cons a t ih =>
    cases i with
    | zero => simp
    | succ i => simpa [List.getD] using ih (i := i)

theorem set_getD_self {α : Type} (d : α) (l : List α) {i : ℕ} (h : i < l.length) :
    l.set i (l.getD i d) = l := by
  induction l generalizing i with
  | nil => rfl
  | cons a t ih =>
    cases i with
    | zero => rfl
    | succ i => simpa [List.getD] using ih (by simpa using h)

theorem foldl_preserve {α β : Type} {P : α → Prop} {f : α → β → α} {l : List β} {a : α}
    (h : ∀ x b, b ∈ l → P x → P (f x b)) (ha : P a) : P (l.foldl f a) := by
  induction l generalizing a with
  | nil => exact ha
  | cons b t ih =>
    exact ih (fun x c hc hx => h x c (List.mem_cons_of_mem _ hc) hx)
      (h a b (List.mem_cons_self _ _) ha)

theorem Vec3.smul_zero_eq (a : Vec3) : a.smul 0 = Vec3.zero := by
  simp [Vec3.smul, Vec3.zero]

theorem Vec3.add_zero_eq (a : Vec3) : a.add Vec3.zero = a := by
  simp [Vec3.add, Vec3.zero]

theorem Vec3.sub_self_eq (a : Vec3) : a.sub a = Vec3.zero := by
  simp [Vec3.sub, Vec3.zero]

theorem Vec3.lengthSq_zero_eq : Vec3.zero.lengthSq = 0 := by
  simp [Vec3.lengthSq, Vec3.zero]

theorem Vec3.lengthSq_smul (a : Vec3) (s : ℚ) :
    (a.smul s).lengthSq = s * s * a.lengthSq := by
  simp [Vec3.smul, Vec3.lengthSq]; ring

theorem Vec3.add_neg_add (a d : Vec3) : (a.add d).add d.neg = a := by
  cases a; cases d; simp [Vec3.add, Vec3.neg]

theorem getV_set_ne (l : List Vec3) {i j : ℕ} (v : Vec3) (h : i ≠ j) :
    getV (l.set i v) j = getV l j := getD_set_ne _ l v h

theorem getQ_set_ne (l : List ℚ) {i j : ℕ} (v : ℚ) (h : i ≠ j) :
    getQ (l.set i v) j = getQ l j := getD_set_ne _ l v h

theorem getV_set_same (l : List Vec3) (i j : ℕ) :
    getV (l.set i (getV l i)) j = getV l j := by
  by_cases h : i = j
  · subst h
    show (l.set i (getV l i)).getD i Vec3.zero = l.getD i Vec3.zero
    rw [getD_set_self]
    split <;> rfl
  · exact getV_set_ne l _ h

theorem getV_set_add_zero (l : List Vec3) (i j : ℕ) (u : Vec3) :
    getV (l.set i ((getV l i).add (u.smul 0))) j = getV l j := by
  rw [Vec3.smul_zero_eq, Vec3.add_zero_eq]
  exact getV_set_same l i j

theorem getV_set_kin (l : List Vec3) {i : ℕ} (a : ℕ) (u : Vec3) (w : ℚ)
    (h : a = i → w = 0) :
    getV (l.set a ((getV l a).add (u.smul w))) i = getV l i := by
  by_cases ha : a = i
  · rw [h ha]
    rw [Vec3.smul_zero_eq, Vec3.add_zero_eq]
    exact getV_set_same l a i
  · exact getV_set_ne _ _ ha

theorem kin_integrateStep (sq : ℚ → ℚ) {m0 : List ℚ} {i : ℕ} {p0 : Vec3}
    (hk : getQ m0 i = 0) (x : Cloth) (j : ℕ)
    (hm : x.invMass = m0) (hp : getV x.pos i = p0) :
    (Cloth.integrateStep sq x j).invMass = m0
      ∧ getV (Cloth.integrateStep sq x j).pos i = p0 := by
  simp only [Cloth.integrateStep]
  split
  · exact ⟨hm, hp⟩
  next hq =>
    have hji : j ≠ i := fun h => hq (by rw [h, hm, hk])
    exact ⟨hm, by rw [← hp]; exact getV_set_ne _ _ hji⟩

theorem kin_groundStep {m0 : List ℚ} {i : ℕ} {p0 : Vec3}
    (hk : getQ m0 i = 0) (x : Cloth) (j : ℕ)
    (hm : x.invMass = m0) (hp : getV x.pos i = p0) :
    (Cloth.groundStep x j).invMass = m0
      ∧ getV (Cloth.groundStep x j).pos i = p0 := by
  simp only [Cloth.groundStep]
  split
  · exact ⟨hm, hp⟩
  next hq =>
    have hji : j ≠ i := fun h => hq (by rw [h, hm, hk])
    split
    · exact ⟨hm, by rw [← hp]; exact getV_set_ne _ _ hji⟩
    · exact ⟨hm, hp⟩

theorem kin_constraintStep (sq : ℚ → ℚ) {m0 : List ℚ} {i : ℕ} {p0 : Vec3}
    (hk : getQ m0 i = 0) (x : Cloth) (cons : Constraint)
    (hm : x.invMass = m0) (hp : getV x.pos i = p0) :
    (Cloth.solveConstraintStep sq x cons).invMass = m0
      ∧ getV (Cloth.solveConstraintStep sq x cons).pos i = p0 := by
  simp only [Cloth.solveConstraintStep]
  split
  · exact ⟨hm, hp⟩
  next hw =>
    split
    · exact ⟨hm, hp⟩
    next hl =>
      refine ⟨hm, ?_⟩
      rw [← hp]
      rw [getV_set_kin _ _ _ _ (fun h => by rw [h, hm]; exact hk)]
      rw [getV_set_kin _ _ _ _ (fun h => by rw [h, hm]; exact hk)]

theorem kin_collisionPair (sq : ℚ → ℚ) {m0 : List ℚ} {i : ℕ} {p0 : Vec3}
    (hk : getQ m0 i = 0) (x : Cloth) (id0 id1 : ℕ) (hi0 : id0 ≠ i)
    (hm : x.invMass = m0) (hp : getV x.pos i = p0) :
    (Cloth.solveCollisionPair sq x id0 id1).invMass = m0
      ∧ getV (Cloth.solveCollisionPair sq x id0 id1).pos i = p0 := by
  simp only [Cloth.solveCollisionPair]
  split
  · exact ⟨hm, hp⟩
  next hq1 =>
    have hi1 : id1 ≠ i := fun h => hq1 (by rw [h, hm, hk])
    split
    · exact ⟨hm, hp⟩
    · split
      · exact ⟨hm, hp⟩
      · refine ⟨hm, ?_⟩
        rw [← hp]
        rw [getV_set_ne _ _ hi1, getV_set_ne _ _ hi0,
          getV_set_ne _ _ hi1, getV_set_ne _ _ hi0]

theorem kin_collisionOuter (sq : ℚ → ℚ) (fa ai : List ℕ) {m0 : List ℚ} {i : ℕ}
    {p0 : Vec3} (hk : getQ m0 i = 0) (x : Cloth) (j : ℕ)
    (hm : x.invMass = m0) (hp : getV x.pos i = p0) :
    (Cloth.collisionOuterStep sq fa ai x j).invMass = m0
      ∧ getV (Cloth.collisionOuterStep sq fa ai x j).pos i = p0 := by
  simp only [Cloth.collisionOuterStep]
  split
  · exact ⟨hm, hp⟩
  next hq =>
    have hji : j ≠ i := fun h => hq (by rw [h, hm, hk])
    exact foldl_preserve
      (P := fun y => y.invMass = m0 ∧ getV y.pos i = p0)
      (fun y b _ hy => kin_collisionPair sq hk y j (getN ai b) hji hy.1 hy.2)
      ⟨hm, hp⟩

theorem kin_updateVelStep {m0 : List ℚ} {i : ℕ} {p0 : Vec3}
    (x : Cloth) (j : ℕ) (hm : x.invMass = m0) (hp : getV x.pos i = p0) :
    (Cloth.updateVelStep x j).invMass = m0
      ∧ getV (Cloth.updateVelStep x j).pos i = p0 := by
  simp only [Cloth.updateVelStep]
  split
  · exact ⟨hm, hp⟩
  · exact ⟨hm, hp⟩

theorem kin_integrate (sq : ℚ → ℚ) {m0 : List ℚ} {i : ℕ} {p0 : Vec3}
    (hk : getQ m0 i = 0) (x : Cloth)
    (hm : x.invMass = m0) (hp : getV x.pos i = p0) :
    (Cloth.integrate sq x).invMass = m0 ∧ getV (Cloth.integrate sq x).pos i = p0 := by
  unfold Cloth.integrate
  exact foldl_preserve (P := fun y => y.invMass = m0 ∧ getV y.pos i = p0)
    (fun y b _ hy => kin_integrateStep sq hk y b hy.1 hy.2) ⟨hm, hp⟩

theorem kin_ground {m0 : List ℚ} {i : ℕ} {p0 : Vec3}
    (hk : getQ m0 i = 0) (x : Cloth)
    (hm : x.invMass = m0) (hp : getV x.pos i = p0) :
    (Cloth.solveGroundCollisions x).invMass = m0
      ∧ getV (Cloth.solveGroundCollisions x).pos i = p0 := by
  unfold Cloth.solveGroundCollisions
  exact foldl_preserve (P := fun y => y.invMass = m0 ∧ getV y.pos i = p0)
    (fun y b _ hy => kin_groundStep hk y b hy.1 hy.2) ⟨hm, hp⟩

theorem kin_constraints (sq : ℚ → ℚ) {m0 : List ℚ} {i : ℕ} {p0 : Vec3}
    (hk : getQ m0 i = 0) (x : Cloth)
    (hm : x.invMass = m0) (hp : getV x.pos i = p0) :
    (Cloth.solveConstraints sq x).invMass = m0
      ∧ getV (Cloth.solveConstraints sq x).pos i = p0 := by
  unfold Cloth.solveConstraints
  exact foldl_preserve (P := fun y => y.invMass = m0 ∧ getV y.pos i = p0)
    (fun y b _ hy => kin_constraintStep sq hk y b hy.1 hy.2) ⟨hm, hp⟩

theorem kin_collisions (sq : ℚ → ℚ) (fa ai : List ℕ) {m0 : List ℚ} {i : ℕ}
    {p0 : Vec3} (hk : getQ m0 i = 0) (x : Cloth)
    (hm : x.invMass = m0) (hp : getV x.pos i = p0) :
    (Cloth.solveCollisions sq fa ai x).invMass = m0
      ∧ getV (Cloth.solveCollisions sq fa ai x).pos i = p0 := by
  unfold Cloth.solveCollisions
  exact foldl_preserve (P := fun y => y.invMass = m0 ∧ getV y.pos i = p0)
    (fun y b _ hy => kin_collisionOuter sq fa ai hk y b hy.1 hy.2) ⟨hm, hp⟩

theorem kin_updateVel {m0 : List ℚ} {i : ℕ} {p0 : Vec3} (x : Cloth)
    (hm : x.invMass = m0) (hp : getV x.pos i = p0) :
    (Cloth.updateVelocities x).invMass = m0
      ∧ getV (Cloth.updateVelocities x).pos i = p0 := by
  unfold Cloth.updateVelocities
  exact foldl_preserve (P := fun y => y.invMass = m0 ∧ getV y.pos i = p0)
    (fun y b _ hy => kin_updateVelStep y b hy.1 hy.2) ⟨hm, hp⟩

theorem kin_substep (sq : ℚ → ℚ) (fa ai : List ℕ) {m0 : List ℚ} {i : ℕ}
    {p0 : Vec3} (hk : getQ m0 i = 0) (x : Cloth)
    (hm : x.invMass = m0) (hp : getV x.pos i = p0) :
    (Cloth.substep sq fa ai x).invMass = m0
      ∧ getV (Cloth.substep sq fa ai x).pos i = p0 := by
  simp only [Cloth.substep]
  have h3 := kin_constraints sq hk _ (kin_ground hk _ (kin_integrate sq hk x hm hp).1
    (kin_integrate sq hk x hm hp).2).1 (kin_ground hk _ (kin_integrate sq hk x hm hp).1
    (kin_integrate sq hk x hm hp).2).2
  refine kin_updateVel _ ?_ ?_
  · split
    · exact (kin_collisions sq fa ai hk _ h3.1 h3.2).1
    · exact h3.1
  · split
    · exact (kin_collisions sq fa ai hk _ h3.1 h3.2).2
    · exact h3.2

theorem kin_preSolveStep {m0 : List ℚ} {i : ℕ} {p0 : Vec3}
    (hk : getQ m0 i = 0) (x : SoftBody) (j : ℕ)
    (hm : x.invMass = m0) (hp : getV x.pos i = p0) :
    (SoftBody.preSolveStep x j).invMass = m0
      ∧ getV (SoftBody.preSolveStep x j).pos i = p0 := by
  simp only [SoftBody.preSolveStep]
  split
  · exact ⟨hm, hp⟩
  next hq =>
    have hji : j ≠ i := fun h => hq (by rw [h, hm, hk])
    split
    · exact ⟨hm, by rw [← hp]; exact getV_set_ne _ _ hji⟩
    · exact ⟨hm, by rw [← hp]; exact getV_set_ne _ _ hji⟩

theorem kin_solveEdgeStep (sq : ℚ → ℚ) {m0 : List ℚ} {i : ℕ} {p0 : Vec3}
    (hk : getQ m0 i = 0) (x : SoftBody) (j : ℕ)
    (hm : x.invMass = m0) (hp : getV x.pos i = p0) :
    (SoftBody.solveEdgeStep sq x j).invMass = m0
      ∧ getV (SoftBody.solveEdgeStep sq x j).pos i = p0 := by
  simp only [SoftBody.solveEdgeStep]
  split
  · exact ⟨hm, hp⟩
  next hw =>
    split
    · exact ⟨hm, hp⟩
    next hl =>
      refine ⟨hm, ?_⟩
      rw [← hp]
      rw [getV_set_kin _ _ _ _ (fun h => by rw [h, hm]; exact hk)]
      rw [getV_set_kin _ _ _ _ (fun h => by rw [h, hm]; exact hk)]

theorem kin_volumeStep {m0 : List ℚ} {i : ℕ} {p0 : Vec3}
    (hk : getQ m0 i = 0) (x : SoftBody) (j : ℕ)
    (hm : x.invMass = m0) (hp : getV x.pos i = p0) :
    (SoftBody.volumeStep x j).invMass = m0
      ∧ getV (SoftBody.volumeStep x j).pos i = p0 := by
  simp only [SoftBody.volumeStep]
  split
  · exact ⟨hm, hp⟩
  next hw =>
    refine ⟨hm, ?_⟩
    rw [← hp]
    rw [getV_set_kin _ _ _ _ (fun h => by rw [h, hm]; exact hk)]
    rw [getV_set_kin _ _ _ _ (fun h => by rw [h, hm]; exact hk)]
    rw [getV_set_kin _ _ _ _ (fun h => by rw [h, hm]; exact hk)]
    rw [getV_set_kin _ _ _ _ (fun h => by rw [h, hm]; exact hk)]

theorem kin_postSolveStep {m0 : List ℚ} {i : ℕ} {p0 : Vec3}
    (x : SoftBody) (j : ℕ) (hm : x.invMass = m0) (hp : getV x.pos i = p0) :
    (SoftBody.postSolveStep x j).invMass = m0
      ∧ getV (SoftBody.postSolveStep x j).pos i = p0 := by
  simp only [SoftBody.postSolveStep]
  split
  · exact ⟨hm, hp⟩
  · exact ⟨hm, hp⟩

theorem kin_substepS (sq : ℚ → ℚ) {m0 : List ℚ} {i : ℕ} {p0 : Vec3}
    (hk : getQ m0 i = 0) (x : SoftBody)
    (hm : x.invMass = m0) (hp : getV x.pos i = p0) :
    (SoftBody.substep sq x).invMass = m0
      ∧ getV (SoftBody.substep sq x).pos i = p0 := by
  simp only [SoftBody.substep, SoftBody.preSolve, SoftBody.solveEdges,
    SoftBody.solveVolumes, SoftBody.postSolve]
  refine foldl_preserve (P := fun y => y.invMass = m0 ∧ getV y.pos i = p0)
    (fun y b _ hy => kin_postSolveStep y b hy.1 hy.2) ?_
  refine foldl_preserve (P := fun y => y.invMass = m0 ∧ getV y.pos i = p0)
    (fun y b _ hy => kin_volumeStep hk y b hy.1 hy.2) ?_
  refine foldl_preserve (P := fun y => y.invMass = m0 ∧ getV y.pos i = p0)
    (fun y b _ hy => kin_solveEdgeStep sq hk y b hy.1 hy.2) ?_
  exact foldl_preserve (P := fun y => y.invMass = m0 ∧ getV y.pos i = p0)
    (fun y b _ hy => kin_preSolveStep hk y b hy.1 hy.2) ⟨hm, hp⟩

/-- Claim C1: for every particle with zero inverse mass, a full `simulate()`
call (cloth or soft body) leaves its position unchanged: integration, ground
clamping and self-collision skip kinematic particles, and the distance and
volume projections scale every correction applied to such a particle by its
inverse mass 0. -/
theorem C1_kinematic_pos_unchanged :
    (∀ (sq : ℚ → ℚ) (fa ai : List ℕ) (c : Cloth) (i : ℕ),
        getQ c.invMass i = 0 →
        getV (Cloth.simulate sq fa ai c).pos i = getV c.pos i)
    ∧ (∀ (sq : ℚ → ℚ) (s : SoftBody) (i : ℕ),
        getQ s.invMass i = 0 →
        getV (SoftBody.simulate sq s).pos i = getV s.pos i) := by
  constructor
  · intro sq fa ai c i hk
    unfold Cloth.simulate
    exact (foldl_preserve
      (P := fun y => y.invMass = c.invMass ∧ getV y.pos i = getV c.pos i)
      (fun y b _ hy => kin_substep sq fa ai hk y hy.1 hy.2) ⟨rfl, rfl⟩).2
  · intro sq s i hk
    unfold SoftBody.simulate
    exact (foldl_preserve
      (P := fun y => y.invMass = s.invMass ∧ getV y.pos i = getV s.pos i)
      (fun y b _ hy => kin_substepS sq hk y hy.1 hy.2) ⟨rfl, rfl⟩).2

/-- Witness for C1: on a two-particle cloth and soft body whose particle 0
is kinematic, one `simulate` call leaves position 0 exactly in place. -/
theorem C1_witness :
    getQ clothKin.invMass 0 = 0
    ∧ getV (Cloth.simulate ratSqrt [] [] clothKin).pos 0 = getV clothKin.pos 0
    ∧ getQ softKin.invMass 0 = 0
    ∧ getV (SoftBody.simulate ratSqrt softKin).pos 0 = getV softKin.pos 0 :=
  ⟨by decide, C1_kinematic_pos_unchanged.1 ratSqrt [] [] clothKin 0 (by decide),
   by decide, C1_kinematic_pos_unchanged.2 ratSqrt softKin 0 (by decide)⟩

theorem translate_proj (x : SoftBody) (d : Vec3) :
    (x.translate d).pos = (List.range x.numParticles).foldl
        (fun acc i => acc.set i ((getV acc i).add d)) x.pos
    ∧ (x.translate d).prev = (List.range x.numParticles).foldl
        (fun acc i => acc.set i ((getV acc i).add d)) x.prev
    ∧ (x.translate d).vel = x.vel
    ∧ (x.translate d).numParticles = x.numParticles := by
  unfold SoftBody.translate
  generalize List.range x.numParticles = l
  induction l generalizing x with
  | nil => exact ⟨rfl, rfl, rfl, rfl⟩
  | cons i t ih =>
    simp only [List.foldl_cons]
    exact ih _

theorem translate32_vel (x : SoftBody) (d : Vec3) : (x.translate32 d).vel = x.vel := by
  unfold SoftBody.translate32
  exact foldl_preserve (P := fun (y : SoftBody) => y.vel = x.vel) (fun y b _ hy => hy) rfl

theorem getV_set_self (l : List Vec3) (i : ℕ) (v : Vec3) :
    getV (l.set i v) i = if i < l.length then v else getV l i := getD_set_self _ l i v

theorem list_eq_of_getV {l1 l2 : List Vec3} (hlen : l1.length = l2.length)
    (h : ∀ j, getV l1 j = getV l2 j) : l1 = l2 := by
  apply List.ext_getElem hlen
  intro j h1 h2
  have hj := h j
  simp only [getV] at hj
  rwa [List.getD_eq_getElem _ _ h1, List.getD_eq_getElem _ _ h2] at hj

theorem foldl_setAdd_length (d : Vec3) (l0 : List Vec3) (ns : List ℕ) :
    (ns.foldl (fun acc i => acc.set i ((getV acc i).add d)) l0).length = l0.length :=
  foldl_preserve (P := fun (y : List Vec3) => y.length = l0.length)
    (fun y b _ hy => by simp only [List.length_set]; exact hy) rfl

theorem foldl_setAdd_getD (d : Vec3) (n : ℕ) (l0 : List Vec3) (j : ℕ) :
    getV ((List.range n).foldl (fun acc i => acc.set i ((getV acc i).add d)) l0) j
      = if j < n ∧ j < l0.length then (getV l0 j).add d else getV l0 j := by
  induction n with
  | zero => simp
  | succ n ih =>
    rw [List.range_succ, List.foldl_append]
    simp only [List.foldl_cons, List.foldl_nil]
    by_cases hj : j = n
    · subst hj
      have hIH : getV ((List.range j).foldl
          (fun acc i => acc.set i ((getV acc i).add d)) l0) j = getV l0 j := by
        rw [ih]
        simp
      rw [getV_set_self, foldl_setAdd_length, hIH]
      by_cases hl : j < l0.length
      · rw [if_pos hl, if_pos ⟨Nat.lt_succ_self j, hl⟩]
      · rw [if_neg hl, if_neg fun h => hl h.2]
    · rw [getV_set_ne _ _ (fun h => hj h.symm), ih]
      have hiff : (j < n ∧ j < l0.length) ↔ (j < n + 1 ∧ j < l0.length) := by
        constructor
        · exact fun h => ⟨Nat.lt_succ_of_lt h.1, h.2⟩
        · exact fun h => ⟨Nat.lt_of_le_of_ne (Nat.lt_succ_iff.mp h.1) hj, h.2⟩
      rw [if_congr hiff rfl rfl]

/-- Claim C8, amended: in exact arithmetic, `translate(d)` followed by
`translate(-d)` restores `pos` and `prev` of every particle, and `translate`
never touches `vel` (in the binary32 model as well); the bit-exact claim
fails in binary32 because each `+=` rounds. -/
theorem C8_translate_roundtrip_exact (s : SoftBody) (d : Vec3) :
    ((s.translate d).translate d.neg).pos = s.pos
    ∧ ((s.translate d).translate d.neg).prev = s.prev
    ∧ (s.translate d).vel = s.vel
    ∧ (s.translate32 d).vel = s.vel := by
  have t1 := translate_proj s d
  have t2 := translate_proj (s.translate d) d.neg
  have hn := t1.2.2.2
  have roundtrip : ∀ l0 : List Vec3,
      (List.range s.numParticles).foldl
        (fun acc i => acc.set i ((getV acc i).add d.neg))
        ((List.range s.numParticles).foldl
          (fun acc i => acc.set i ((getV acc i).add d)) l0) = l0 := by
    intro l0
    apply list_eq_of_getV
    · rw [foldl_setAdd_length, foldl_setAdd_length]
    · intro j
      rw [foldl_setAdd_getD, foldl_setAdd_getD, foldl_setAdd_length]
      by_cases hc : j < s.numParticles ∧ j < l0.length
      · rw [if_pos hc, if_pos hc, Vec3.add_neg_add]
      · rw [if_neg hc, if_neg hc]
  refine ⟨?_, ?_, t1.2.2.1, translate32_vel s d⟩
  · rw [t2.1, hn, t1.1, roundtrip]
  · rw [t2.2.1, hn, t1.2.1, roundtrip]

/-- Counterexample for C8: a position coordinate of `2 ^ (-25)` is absorbed
when `1.0` is added in binary32, so `translate((1,0,0))` followed by
`translate((-1,0,0))` zeroes it instead of restoring it. -/
theorem C8_counterexample :
    ((softTiny.translate32 ⟨1, 0, 0⟩).translate32 (Vec3.neg ⟨1, 0, 0⟩)).pos
        ≠ softTiny.pos
    ∧ ((softTiny.translate32 ⟨1, 0, 0⟩).translate32 (Vec3.neg ⟨1, 0, 0⟩)).pos
        = [Vec3.zero] := by
  constructor
  · decide
  · decide

set_option maxRecDepth 8000 in
set_option maxHeartbeats 4000000 in
/-- Claim C6, amended: after `set_solver_substeps(n)`, the stored binary32
`dt = TIME_STEP / n` satisfies `dt * n = TIME_STEP` under binary32 equality
for every `1 ≤ n ≤ 538` (so in particular for every substep count of
practical size, the default 10 included), in both simulators, which share
the computation; the identity is not an algebraic law of binary32, and
`n = 539` is the first counterexample. -/
theorem C6_dt_roundtrip_bounded :
    ∀ n : ℕ, n < 539 → 1 ≤ n → dtTimesSubsteps32 n = TIME_STEP32 := by
  decide

/-- Witness for C6 at the default substep count `n = 10`. -/
theorem C6_witness :
    (10 : ℕ) < 539 ∧ 1 ≤ (10 : ℕ) ∧ dtTimesSubsteps32 10 = TIME_STEP32 :=
  ⟨by decide, by decide, C6_dt_roundtrip_bounded 10 (by decide) (by decide)⟩

set_option maxRecDepth 8000 in
/-- Counterexample for C6: at `n = 539` the recomposed product
`dt * 539` differs from `TIME_STEP` in binary32 (the quotient rounds down
by just over half an ulp, and the product rounds up). -/
theorem C6_counterexample : dtTimesSubsteps32 539 ≠ TIME_STEP32 := by
  decide

theorem findNearest_lt (p : Vec3) (pos : List Vec3) (n : ℕ) :
    ∀ i, (findNearest p pos n).2 = some i → i < n := by
  unfold findNearest
  refine foldl_preserve
    (P := fun (acc : ℚ × Option ℕ) => ∀ i, acc.2 = some i → i < n) ?_ ?_
  · intro x b hb hx i hsome
    dsimp only at hsome
    split at hsome
    · cases hsome
      exact List.mem_range.mp hb
    · exact hx i hsome
  · intro i h
    cases h

theorem findNearest_isSome (p : Vec3) (pos : List Vec3) (n : ℕ) (hn : 1 ≤ n)
    (h0 : (p.sub (getV pos 0)).lengthSq < F32_MAX) :
    ∃ i, (findNearest p pos n).2 = some i := by
  unfold findNearest
  obtain ⟨m, rfl⟩ : ∃ m, n = m + 1 := ⟨n - 1, (Nat.succ_pred_eq_of_pos hn).symm⟩
  rw [List.range_succ_eq_map, List.foldl_cons]
  rw [if_pos h0]
  refine foldl_preserve (P := fun (acc : ℚ × Option ℕ) => ∃ i, acc.2 = some i)
    ?_ ⟨0, rfl⟩
  intro x b hb hx
  obtain ⟨i, hi⟩ := hx
  dsimp only
  split
  · exact ⟨b, rfl⟩
  · exact ⟨i, hi⟩

theorem set_zero_set_getD (l : List ℚ) (i : ℕ) :
    (l.set i 0).set i (l.getD i 0) = l := by
  rw [List.set_set]
  by_cases h : i < l.length
  · exact set_getD_self _ l h
  · exact set_of_length_le l _ (le_of_not_lt h)

/-- Claim C7: on a simulator with at least one particle in range of the
`f32::MAX` search bound and no active grab, `start_grab(p); end_grab(v)`
grabs some particle, restores the whole `inv_mass` table to its pre-grab
contents, writes exactly `v` into the grabbed particle's velocity and
clears the grab slot; `move_grabbed` and `end_grab` without an active grab
leave the state untouched. -/
theorem C7_grab_roundtrip :
    (∀ (c : Cloth) (p v : Vec3),
      c.grabId = none → 1 ≤ c.numParticles → c.numParticles ≤ c.vel.length →
      (p.sub (getV c.pos 0)).lengthSq < F32_MAX →
      (∃ i, (c.startGrab p).grabId = some i)
      ∧ (∀ i, (c.startGrab p).grabId = some i →
          ((c.startGrab p).endGrab v).invMass = c.invMass
          ∧ getV ((c.startGrab p).endGrab v).vel i = v
          ∧ ((c.startGrab p).endGrab v).grabId = none)
      ∧ c.moveGrabbed p = c ∧ c.endGrab v = c)
    ∧ (∀ (s : SoftBody) (p v : Vec3),
      s.grabId = none → 1 ≤ s.numParticles → s.numParticles ≤ s.vel.length →
      (p.sub (getV s.pos 0)).lengthSq < F32_MAX →
      (∃ i, (s.startGrab p).grabId = some i)
      ∧ (∀ i, (s.startGrab p).grabId = some i →
          ((s.startGrab p).endGrab v).invMass = s.invMass
          ∧ getV ((s.startGrab p).endGrab v).vel i = v
          ∧ ((s.startGrab p).endGrab v).grabId = none)
      ∧ s.moveGrabbed p = s ∧ s.endGrab v = s) := by
  constructor
  · intro c p v hg hn hlen h0
    obtain ⟨i0, hi0⟩ := findNearest_isSome p c.pos c.numParticles hn h0
    have hlt := findNearest_lt p c.pos c.numParticles i0 hi0
    have hstart : c.startGrab p =
        { c with grabId := some i0, grabInvMass := getQ c.invMass i0,
                 invMass := c.invMass.set i0 0, pos := c.pos.set i0 p } := by
      unfold Cloth.startGrab
      rw [hi0]
    refine ⟨⟨i0, by rw [hstart]⟩, ?_, ?_, ?_⟩
    · intro i hi
      rw [hstart] at hi
      have hii : i = i0 := by
        have : some i0 = some i := hi
        exact (Option.some.inj this).symm
      subst hii
      have hend : (c.startGrab p).endGrab v =
          { c with grabId := none, grabInvMass := getQ c.invMass i,
                   invMass := (c.invMass.set i 0).set i (getQ c.invMass i),
                   pos := c.pos.set i p,
                   vel := c.vel.set i v } := by
        rw [hstart]
        unfold Cloth.endGrab
        rfl
      rw [hend]
      refine ⟨set_zero_set_getD c.invMass i, ?_, rfl⟩
      show getV (c.vel.set i v) i = v
      rw [getV_set_self, if_pos (lt_of_lt_of_le hlt hlen)]
    · unfold Cloth.moveGrabbed
      rw [hg]
    · unfold Cloth.endGrab
      rw [hg]
      cases c
      simp_all
  · intro s p v hg hn hlen h0
    obtain ⟨i0, hi0⟩ := findNearest_isSome p s.pos s.numParticles hn h0
    have hlt := findNearest_lt p s.pos s.numParticles i0 hi0
    have hstart : s.startGrab p =
        { s with grabId := some i0, grabInvMass := getQ s.invMass i0,
                 invMass := s.invMass.set i0 0, pos := s.pos.set i0 p } := by
      unfold SoftBody.startGrab
      rw [hi0]
    refine ⟨⟨i0, by rw [hstart]⟩, ?_, ?_, ?_⟩
    · intro i hi
      rw [hstart] at hi
      have hii : i = i0 := by
        have : some i0 = some i := hi
        exact (Option.some.inj this).symm
      subst hii
      have hend : (s.startGrab p).endGrab v =
          { s with grabId := none, grabInvMass := getQ s.invMass i,
                   invMass := (s.invMass.set i 0).set i (getQ s.invMass i),
                   pos := s.pos.set i p,
                   vel := s.vel.set i v } := by
        rw [hstart]
        unfold SoftBody.endGrab
        rfl
      rw [hend]
      refine ⟨set_zero_set_getD s.invMass i, ?_, rfl⟩
      show getV (s.vel.set i v) i = v
      rw [getV_set_self, if_pos (lt_of_lt_of_le hlt hlen)]
    · unfold SoftBody.moveGrabbed
      rw [hg]
    · unfold SoftBody.endGrab
      rw [hg]
      cases s
      simp_all

set_option maxRecDepth 8000 in
/-- Witness for C7: on the two-particle cloth and soft body, grabbing near
`(4,0,0)` picks particle 1, and `end_grab((1,2,3))` restores the inverse
masses, writes the velocity and clears the slot. -/
theorem C7_witness :
    (clothGrab.grabId = none ∧ 1 ≤ clothGrab.numParticles
      ∧ clothGrab.numParticles ≤ clothGrab.vel.length
      ∧ ((⟨4, 0, 0⟩ : Vec3).sub (getV clothGrab.pos 0)).lengthSq < F32_MAX
      ∧ ((clothGrab.startGrab ⟨4, 0, 0⟩).endGrab ⟨1, 2, 3⟩).invMass = clothGrab.invMass
      ∧ getV ((clothGrab.startGrab ⟨4, 0, 0⟩).endGrab ⟨1, 2, 3⟩).vel 1 = ⟨1, 2, 3⟩
      ∧ ((clothGrab.startGrab ⟨4, 0, 0⟩).endGrab ⟨1, 2, 3⟩).grabId = none)
    ∧ (softGrab.grabId = none ∧ 1 ≤ softGrab.numParticles
      ∧ softGrab.numParticles ≤ softGrab.vel.length
      ∧ ((⟨4, 0, 0⟩ : Vec3).sub (getV softGrab.pos 0)).lengthSq < F32_MAX
      ∧ ((softGrab.startGrab ⟨4, 0, 0⟩).endGrab ⟨1, 2, 3⟩).invMass = softGrab.invMass
      ∧ getV ((softGrab.startGrab ⟨4, 0, 0⟩).endGrab ⟨1, 2, 3⟩).vel 1 = ⟨1, 2, 3⟩
      ∧ ((softGrab.startGrab ⟨4, 0, 0⟩).endGrab ⟨1, 2, 3⟩).grabId = none) := by
  have hc := (C7_grab_roundtrip.1 clothGrab ⟨4, 0, 0⟩ ⟨1, 2, 3⟩
    (by decide) (by decide) (by decide) (by decide)).2.1 1 (by decide)
  have hs := (C7_grab_roundtrip.2 softGrab ⟨4, 0, 0⟩ ⟨1, 2, 3⟩
    (by decide) (by decide) (by decide) (by decide)).2.1 1 (by decide)
  exact ⟨⟨by decide, by decide, by decide, by decide, hc.1, hc.2.1, hc.2.2⟩,
    ⟨by decide, by decide, by decide, by decide, hs.1, hs.2.1, hs.2.2⟩⟩

theorem Vec3.smul_smul (u : Vec3) (s w : ℚ) : (u.smul s).smul w = u.smul (s * w) := by
  cases u
  simp only [Vec3.smul, Vec3.mk.injEq]
  exact ⟨by ring, by ring, by ring⟩

theorem Vec3.add_smul_neg (a u : Vec3) (s w : ℚ) :
    a.add ((u.smul (-s)).smul w) = a.sub (u.smul (s * w)) := by
  cases a
  cases u
  simp only [Vec3.add, Vec3.sub, Vec3.smul, Vec3.mk.injEq]
  exact ⟨by ring, by ring, by ring⟩

/-- Claim C4: a single distance-constraint projection pass, in the cloth
sweep (compliance selected by constraint kind) and in the soft-body edge
sweep (edge compliance), acts on the two endpoint positions exactly as the
XPBD formula of the specification, and touches no other particle. -/
theorem C4_distance_projection :
    (∀ (sq : ℚ → ℚ) (c : Cloth) (cons : Constraint),
      cons.ids.1 ≠ cons.ids.2 → cons.ids.1 < c.pos.length →
      cons.ids.2 < c.pos.length →
      getV (Cloth.solveConstraintStep sq c cons).pos cons.ids.1
          = (specDistanceProject sq (c.getCompliance cons) c.invDt
              (getQ c.invMass cons.ids.1) (getQ c.invMass cons.ids.2)
              (getV c.pos cons.ids.1) (getV c.pos cons.ids.2) cons.restLen).1
      ∧ getV (Cloth.solveConstraintStep sq c cons).pos cons.ids.2
          = (specDistanceProject sq (c.getCompliance cons) c.invDt
              (getQ c.invMass cons.ids.1) (getQ c.invMass cons.ids.2)
              (getV c.pos cons.ids.1) (getV c.pos cons.ids.2) cons.restLen).2
      ∧ ∀ j, j ≠ cons.ids.1 → j ≠ cons.ids.2 →
          getV (Cloth.solveConstraintStep sq c cons).pos j = getV c.pos j)
    ∧ (∀ (sq : ℚ → ℚ) (s : SoftBody) (i : ℕ),
      getN s.edgeIds (2 * i) ≠ getN s.edgeIds (2 * i + 1) →
      getN s.edgeIds (2 * i) < s.pos.length →
      getN s.edgeIds (2 * i + 1) < s.pos.length →
      getV (SoftBody.solveEdgeStep sq s i).pos (getN s.edgeIds (2 * i))
          = (specDistanceProject sq s.edgeCompliance s.invDt
              (getQ s.invMass (getN s.edgeIds (2 * i)))
              (getQ s.invMass (getN s.edgeIds (2 * i + 1)))
              (getV s.pos (getN s.edgeIds (2 * i)))
              (getV s.pos (getN s.edgeIds (2 * i + 1))) (getQ s.edgeLens i)).1
      ∧ getV (SoftBody.solveEdgeStep sq s i).pos (getN s.edgeIds (2 * i + 1))
          = (specDistanceProject sq s.edgeCompliance s.invDt
              (getQ s.invMass (getN s.edgeIds (2 * i)))
              (getQ s.invMass (getN s.edgeIds (2 * i + 1)))
              (getV s.pos (getN s.edgeIds (2 * i)))
              (getV s.pos (getN s.edgeIds (2 * i + 1))) (getQ s.edgeLens i)).2
      ∧ ∀ j, j ≠ getN s.edgeIds (2 * i) → j ≠ getN s.edgeIds (2 * i + 1) →
          getV (SoftBody.solveEdgeStep sq s i).pos j = getV s.pos j) := by
  constructor
  · intro sq c cons hne h0 h1
    simp only [Cloth.solveConstraintStep, specDistanceProject]
    by_cases hw : getQ c.invMass cons.ids.1 + getQ c.invMass cons.ids.2 = 0
    · rw [if_pos hw, if_pos hw]
      exact ⟨rfl, rfl, fun j _ _ => rfl⟩
    · rw [if_neg hw, if_neg hw]
      by_cases hl : sq ((getV c.pos cons.ids.1).sub (getV c.pos cons.ids.2)).lengthSq = 0
      · rw [if_pos hl, if_pos hl]
        exact ⟨rfl, rfl, fun j _ _ => rfl⟩
      · rw [if_neg hl, if_neg hl]
        refine ⟨?_, ?_, ?_⟩
        · rw [getV_set_ne _ _ (fun h => hne h.symm), getV_set_self,
            if_pos h0, Vec3.smul_smul]
        · rw [getV_set_self, List.length_set, if_pos h1,
            getV_set_ne _ _ hne, Vec3.add_smul_neg]
        · intro j hj0 hj1
          rw [getV_set_ne _ _ (fun h => hj1 h.symm), getV_set_ne _ _ (fun h => hj0 h.symm)]
  · intro sq s i hne h0 h1
    simp only [SoftBody.solveEdgeStep, specDistanceProject]
    by_cases hw : getQ s.invMass (getN s.edgeIds (2 * i))
        + getQ s.invMass (getN s.edgeIds (2 * i + 1)) = 0
    · rw [if_pos hw, if_pos hw]
      exact ⟨rfl, rfl, fun j _ _ => rfl⟩
    · rw [if_neg hw, if_neg hw]
      by_cases hl : sq ((getV s.pos (getN s.edgeIds (2 * i))).sub
          (getV s.pos (getN s.edgeIds (2 * i + 1)))).lengthSq = 0
      · rw [if_pos hl, if_pos hl]
        exact ⟨rfl, rfl, fun j _ _ => rfl⟩
      · rw [if_neg hl, if_neg hl]
        refine ⟨?_, ?_, ?_⟩
        · rw [getV_set_ne _ _ (fun h => hne h.symm), getV_set_self,
            if_pos h0, Vec3.smul_smul]
        · rw [getV_set_self, List.length_set, if_pos h1,
            getV_set_ne _ _ hne, Vec3.add_smul_neg]
        · intro j hj0 hj1
          rw [getV_set_ne _ _ (fun h => hj1 h.symm), getV_set_ne _ _ (fun h => hj0 h.symm)]

/-- Witness for C4: the shear constraint `(0,1)` of the two-particle cloth
and edge `0` of the two-particle soft body project exactly as the
specification formula. -/
theorem C4_witness :
    ((⟨(0, 1), ConstraintKind.SHEAR, 1⟩ : Constraint).ids.1
        ≠ (⟨(0, 1), ConstraintKind.SHEAR, 1⟩ : Constraint).ids.2
      ∧ (0 : ℕ) < clothPair.pos.length ∧ (1 : ℕ) < clothPair.pos.length
      ∧ getV (Cloth.solveConstraintStep ratSqrt clothPair
            ⟨(0, 1), ConstraintKind.SHEAR, 1⟩).pos 0
          = (specDistanceProject ratSqrt
              (clothPair.getCompliance ⟨(0, 1), ConstraintKind.SHEAR, 1⟩)
              clothPair.invDt (getQ clothPair.invMass 0) (getQ clothPair.invMass 1)
              (getV clothPair.pos 0) (getV clothPair.pos 1) 1).1)
    ∧ (getN softPair.edgeIds 0 ≠ getN softPair.edgeIds 1
      ∧ getN softPair.edgeIds 0 < softPair.pos.length
      ∧ getN softPair.edgeIds 1 < softPair.pos.length
      ∧ getV (SoftBody.solveEdgeStep ratSqrt softPair 0).pos (getN softPair.edgeIds 1)
          = (specDistanceProject ratSqrt softPair.edgeCompliance softPair.invDt
              (getQ softPair.invMass (getN softPair.edgeIds 0))
              (getQ softPair.invMass (getN softPair.edgeIds 1))
              (getV softPair.pos (getN softPair.edgeIds 0))
              (getV softPair.pos (getN softPair.edgeIds 1))
              (getQ softPair.edgeLens 0)).2) := by
  have hc := (C4_distance_projection.1 ratSqrt clothPair
    ⟨(0, 1), ConstraintKind.SHEAR, 1⟩ (by decide) (by decide) (by decide)).1
  have hs := (C4_distance_projection.2 ratSqrt softPair 0
    (by decide) (by decide) (by decide)).2.1
  exact ⟨⟨by decide, by decide, by decide, hc⟩, ⟨by decide, by decide, by decide, hs⟩⟩

theorem Vec3.add_smul_neg_half (a u : Vec3) :
    a.add (u.smul (-(1 / 2))) = a.sub (u.smul (1 / 2)) := by
  cases a
  cases u
  simp only [Vec3.add, Vec3.sub, Vec3.smul, Vec3.mk.injEq]
  exact ⟨by ring, by ring, by ring⟩

theorem Vec3.add_smul_zero (a u : Vec3) : a.add (u.smul 0) = a := by
  rw [Vec3.smul_zero_eq, Vec3.add_zero_eq]

theorem set_getV_self (l : List Vec3) (i : ℕ) : l.set i (getV l i) = l := by
  by_cases h : i < l.length
  · exact set_getD_self _ l h
  · exact set_of_length_le l _ (le_of_not_lt h)

theorem friction_id (l : List Vec3) (i0 i1 : ℕ) (u0 u1 : Vec3) :
    (l.set i0 ((getV l i0).add (u0.smul 0))).set i1
      ((getV (l.set i0 ((getV l i0).add (u0.smul 0))) i1).add (u1.smul 0)) = l := by
  rw [Vec3.add_smul_zero, set_getV_self, Vec3.add_smul_zero, set_getV_self]

/-- Claim C5: for a candidate pair that passes the proximity test
(`d² ≤ THICKNESS²`, `d² ≠ 0`, neither endpoint kinematic), the narrow phase
binds `r := sq(‖rest_pos[i] − rest_pos[j]‖²)` — the plain, non-squared
Euclidean rest distance — skips the pair exactly when the squared quantity
`d²` exceeds this non-squared `r`, and otherwise corrects positions with
`min_dist = √r` when `r < THICKNESS²` and `min_dist = THICKNESS` otherwise,
followed by the zero-scaled friction hook.  The unit mismatch of the source
is reproduced as written. -/
theorem C5_narrow_phase (sq : ℚ → ℚ) (c : Cloth) (id0 id1 : ℕ)
    (hm : getQ c.invMass id1 ≠ 0)
    (hth : ((getV c.pos id1).sub (getV c.pos id0)).lengthSq
        ≤ c.thickness * c.thickness)
    (hnz : ((getV c.pos id1).sub (getV c.pos id0)).lengthSq ≠ 0) :
    (((getV c.pos id1).sub (getV c.pos id0)).lengthSq
        > sq ((getV c.restPos id0).sub (getV c.restPos id1)).lengthSq →
      Cloth.solveCollisionPair sq c id0 id1 = c)
    ∧ (¬ ((getV c.pos id1).sub (getV c.pos id0)).lengthSq
        > sq ((getV c.restPos id0).sub (getV c.restPos id1)).lengthSq →
      id0 ≠ id1 → id0 < c.pos.length → id1 < c.pos.length →
      getV (Cloth.solveCollisionPair sq c id0 id1).pos id0
          = (getV c.pos id0).sub ((((getV c.pos id1).sub (getV c.pos id0)).smul
              (((if sq ((getV c.restPos id0).sub (getV c.restPos id1)).lengthSq
                    < c.thickness * c.thickness
                  then sq (sq ((getV c.restPos id0).sub (getV c.restPos id1)).lengthSq)
                  else c.thickness)
                - sq ((getV c.pos id1).sub (getV c.pos id0)).lengthSq)
                / sq ((getV c.pos id1).sub (getV c.pos id0)).lengthSq)).smul (1 / 2))
      ∧ getV (Cloth.solveCollisionPair sq c id0 id1).pos id1
          = (getV c.pos id1).add ((((getV c.pos id1).sub (getV c.pos id0)).smul
              (((if sq ((getV c.restPos id0).sub (getV c.restPos id1)).lengthSq
                    < c.thickness * c.thickness
                  then sq (sq ((getV c.restPos id0).sub (getV c.restPos id1)).lengthSq)
                  else c.thickness)
                - sq ((getV c.pos id1).sub (getV c.pos id0)).lengthSq)
                / sq ((getV c.pos id1).sub (getV c.pos id0)).lengthSq)).smul (1 / 2))
      ∧ ∀ j, j ≠ id0 → j ≠ id1 →
          getV (Cloth.solveCollisionPair sq c id0 id1).pos j = getV c.pos j) := by
  have hcond : ¬ (((getV c.pos id1).sub (getV c.pos id0)).lengthSq
      > c.thickness * c.thickness
      ∨ ((getV c.pos id1).sub (getV c.pos id0)).lengthSq = 0) := by
    rintro (h | h)
    · exact absurd hth (not_le.mpr h)
    · exact hnz h
  constructor
  · intro hskip
    simp only [Cloth.solveCollisionPair]
    rw [if_neg hm, if_neg hcond, if_pos hskip]
  · intro hr hne h0 h1
    simp only [Cloth.solveCollisionPair]
    rw [if_neg hm, if_neg hcond, if_neg hr]
    refine ⟨?_, ?_, ?_⟩
    · rw [friction_id, getV_set_ne _ _ (fun h => hne h.symm), getV_set_self, if_pos h0]
      exact Vec3.add_smul_neg_half _ _
    · rw [friction_id, getV_set_self, List.length_set, if_pos h1, getV_set_ne _ _ hne]
    · intro j hj0 hj1
      rw [friction_id, getV_set_ne _ _ (fun h => hj1 h.symm),
        getV_set_ne _ _ (fun h => hj0 h.symm)]

/-- Witness for C5: the two particles of `clothClose` are `1/200` apart
(within `THICKNESS = 1/100`) but `1/4` apart at rest, so the pair is
corrected with `min_dist = THICKNESS` and particle 0 is pushed back along
the pair direction. -/
theorem C5_witness :
    getQ clothClose.invMass 1 ≠ 0
    ∧ ((getV clothClose.pos 1).sub (getV clothClose.pos 0)).lengthSq
        ≤ clothClose.thickness * clothClose.thickness
    ∧ ((getV clothClose.pos 1).sub (getV clothClose.pos 0)).lengthSq ≠ 0
    ∧ ¬ ((getV clothClose.pos 1).sub (getV clothClose.pos 0)).lengthSq
        > ratSqrt ((getV clothClose.restPos 0).sub (getV clothClose.restPos 1)).lengthSq
    ∧ getV (Cloth.solveCollisionPair ratSqrt clothClose 0 1).pos 0
        = (getV clothClose.pos 0).sub ((((getV clothClose.pos 1).sub
            (getV clothClose.pos 0)).smul
            (((if ratSqrt ((getV clothClose.restPos 0).sub
                  (getV clothClose.restPos 1)).lengthSq
                  < clothClose.thickness * clothClose.thickness
                then ratSqrt (ratSqrt ((getV clothClose.restPos 0).sub
                  (getV clothClose.restPos 1)).lengthSq)
                else clothClose.thickness)
              - ratSqrt ((getV clothClose.pos 1).sub
                  (getV clothClose.pos 0)).lengthSq)
              / ratSqrt ((getV clothClose.pos 1).sub
                  (getV clothClose.pos 0)).lengthSq)).smul (1 / 2)) := by
  have h := (C5_narrow_phase ratSqrt clothClose 0 1 (by decide) (by decide)
    (by decide)).2 (by decide) (by decide) (by decide) (by decide)
  exact ⟨by decide, by decide, by decide, by decide, h.1⟩

theorem defaultConstraint_step_id (sq : ℚ → ℚ) (hsq : sq 0 = 0) (x : Cloth) :
    Cloth.solveConstraintStep sq x defaultConstraint = x := by
  simp only [Cloth.solveConstraintStep, defaultConstraint]
  by_cases hw : getQ x.invMass 0 + getQ x.invMass 0 = 0
  · rw [if_pos hw]
  · rw [if_neg hw]
    have hlen : sq ((getV x.pos 0).sub (getV x.pos 0)).lengthSq = 0 := by
      rw [Vec3.sub_self_eq, Vec3.lengthSq_zero_eq, hsq]
    rw [if_pos hlen]

/-- Claim C10: `Cloth::new` pre-allocates `num_particles * 6` constraint
slots with `Constraint::default()` (ids `(0,0)`, rest length 0) and `init`
fills only a prefix; sweeping the entire array is exactly the sweep of the
filled prefix in generation order, because every default slot hits the
zero-length skip (`ids (0,0)` give a zero difference, and `sq 0 = 0`). -/
theorem C10_padded_sweep (sq : ℚ → ℚ) (c : Cloth) (filled : List Constraint)
    (k : ℕ) (hsq : sq 0 = 0)
    (hc : c.constraints = filled ++ List.replicate k defaultConstraint) :
    Cloth.solveConstraints sq c = filled.foldl (Cloth.solveConstraintStep sq) c := by
  unfold Cloth.solveConstraints
  rw [hc, List.foldl_append]
  clear hc
  generalize filled.foldl (Cloth.solveConstraintStep sq) c = x
  induction k generalizing x with
  | zero => rfl
  | succ k ih =>
    rw [List.replicate_succ, List.foldl_cons, defaultConstraint_step_id sq hsq]
    exact ih x

/-- Witness for C10: a cloth whose constraint array is one stretch
constraint followed by two default slots solves exactly as the one-element
sweep, and moves particle 1 to `y = 3/2`. -/
theorem C10_witness :
    ratSqrt 0 = 0
    ∧ clothPadded.constraints
        = [⟨(0, 1), ConstraintKind.STRETCH, 1⟩] ++ List.replicate 2 defaultConstraint
    ∧ Cloth.solveConstraints ratSqrt clothPadded
        = [⟨(0, 1), ConstraintKind.STRETCH, 1⟩].foldl
            (Cloth.solveConstraintStep ratSqrt) clothPadded
    ∧ getV (Cloth.solveConstraints ratSqrt clothPadded).pos 1 = ⟨0, mkRat 3 2, 0⟩ :=
  ⟨by decide, by decide,
   C10_padded_sweep ratSqrt clothPadded [⟨(0, 1), ConstraintKind.STRETCH, 1⟩] 2
     (by decide) (by decide), by decide⟩

theorem getD_default {α : Type} (d : α) (l : List α) {i : ℕ} (h : l.length ≤ i) :
    l.getD i d = d := by
  induction l generalizing i with
  | nil => cases i <;> rfl
  | cons a t ih =>
    cases i with
    | zero => exact absurd h (by simp)
    | succ i => simpa [List.getD] using ih (by simpa using h)

theorem preSolveStep_invMass (x : SoftBody) (j : ℕ) :
    (SoftBody.preSolveStep x j).invMass = x.invMass := by
  simp only [SoftBody.preSolveStep]
  split
  · rfl
  · split <;> rfl

theorem preSolveStep_pos_ne (x : SoftBody) (j i : ℕ) (h : j ≠ i) :
    getV (SoftBody.preSolveStep x j).pos i = getV x.pos i := by
  simp only [SoftBody.preSolveStep]
  split
  · rfl
  · split
    · exact getV_set_ne _ _ h
    · exact getV_set_ne _ _ h

theorem preSolveStep_y_nonneg (x : SoftBody) (i : ℕ) (hk : getQ x.invMass i ≠ 0) :
    0 ≤ (getV (SoftBody.preSolveStep x i).pos i).y := by
  simp only [SoftBody.preSolveStep]
  rw [if_neg hk]
  split
  next hneg =>
    rw [getV_set_self]
    split
    · exact le_refl 0
    next hge =>
      rw [getV, getD_default _ _ (le_of_not_lt hge)]
      exact le_refl 0
  next hpos =>
    rw [getV_set_self]
    split
    · exact le_of_not_lt hpos
    next hge =>
      rw [getV, getD_default _ _ (le_of_not_lt hge)]
      exact le_refl 0

/-- Claim C2, amended: the sticky ground clamp guarantees `pos.y ≥ 0` for
every non-kinematic particle immediately after `pre_solve`; the bound does
not survive the whole `simulate()` call, because `solve_edges` and
`solve_volumes` move positions after the clamp and `post_solve` does not
re-clamp, so the post-frame position can lie arbitrarily far below the
ground. -/
theorem C2_presolve_ground (s : SoftBody) (i : ℕ) (hi : i < s.numParticles)
    (hk : getQ s.invMass i ≠ 0) :
    0 ≤ (getV (SoftBody.preSolve s).pos i).y := by
  unfold SoftBody.preSolve
  have hsplit : List.range s.numParticles
      = (List.range i ++ [i]) ++ (List.range (s.numParticles - (i + 1))).map
          (fun m => (i + 1) + m) := by
    rw [← List.range_succ, ← List.range_add]
    congr 1
    omega
  rw [hsplit, List.foldl_append, List.foldl_append]
  simp only [List.foldl_cons, List.foldl_nil]
  have hM0 : ((List.range i).foldl SoftBody.preSolveStep s).invMass = s.invMass :=
    foldl_preserve (P := fun (y : SoftBody) => y.invMass = s.invMass)
      (fun y b _ hy => (preSolveStep_invMass y b).trans hy) rfl
  refine foldl_preserve (P := fun (y : SoftBody) => 0 ≤ (getV y.pos i).y) ?_ ?_
  · intro x b hb hx
    obtain ⟨m, _, hm⟩ := List.mem_map.mp hb
    have hbne : b ≠ i := by omega
    rw [preSolveStep_pos_ne x b i hbne]
    exact hx
  · exact preSolveStep_y_nonneg _ i (by rw [hM0]; exact hk)

/-- Witness for C2: on the two-particle soft body `softDeep`, particle 1 is
dynamic and sits at `y = 0` right after `pre_solve`. -/
theorem C2_witness :
    1 < softDeep.numParticles ∧ getQ softDeep.invMass 1 ≠ 0
    ∧ 0 ≤ (getV (SoftBody.preSolve softDeep).pos 1).y :=
  ⟨by decide, by decide, C2_presolve_ground softDeep 1 (by decide) (by decide)⟩

/-- Counterexample for C2: one `simulate()` call on `softDeep` drags the
dynamic particle 1 (resting on the ground after the clamp) down to
`y = -99/10`, far below any small tolerance, because the hard edge to the
kinematic particle at `y = -10` is projected after the clamp ran. -/
theorem C2_counterexample :
    getQ softDeep.invMass 1 > 0
    ∧ getV (SoftBody.simulate ratSqrt softDeep).pos 1 = ⟨0, mkRat (-99) 10, 0⟩
    ∧ (getV (SoftBody.simulate ratSqrt softDeep).pos 1).y < -1 :=
  ⟨by decide, by decide, by decide⟩

theorem integrateStep_preserve (sq : ℚ → ℚ) (x : Cloth) (j i : ℕ) (hne : j ≠ i) :
    (Cloth.integrateStep sq x j).invMass = x.invMass
    ∧ (Cloth.integrateStep sq x j).dt = x.dt
    ∧ (Cloth.integrateStep sq x j).maxVel = x.maxVel
    ∧ (Cloth.integrateStep sq x j).vel.length = x.vel.length
    ∧ getV (Cloth.integrateStep sq x j).vel i = getV x.vel i := by
  simp only [Cloth.integrateStep]
  split
  · exact ⟨rfl, rfl, rfl, rfl, rfl⟩
  · exact ⟨rfl, rfl, rfl, List.length_set _ _ _, getV_set_ne _ _ hne⟩

theorem integrateStep_vel_bound (sq : ℚ → ℚ) (x : Cloth) (i : ℕ)
    (hk : getQ x.invMass i ≠ 0) (hlen : i < x.vel.length) (hmv : 0 ≤ x.maxVel)
    (hpos : 0 ≤ sq (((getV x.vel i).add (GRAVITY.smul x.dt)).lengthSq))
    (hexact : sq (((getV x.vel i).add (GRAVITY.smul x.dt)).lengthSq)
        * sq (((getV x.vel i).add (GRAVITY.smul x.dt)).lengthSq)
        = ((getV x.vel i).add (GRAVITY.smul x.dt)).lengthSq) :
    (getV (Cloth.integrateStep sq x i).vel i).lengthSq ≤ x.maxVel * x.maxVel := by
  simp only [Cloth.integrateStep]
  rw [if_neg hk, getV_set_self, if_pos hlen]
  split
  next hgt =>
    rw [Vec3.lengthSq_smul]
    generalize sq (((getV x.vel i).add (GRAVITY.smul x.dt)).lengthSq) = v
      at hgt hpos hexact ⊢
    rw [← hexact]
    have hvne : v ≠ 0 := ne_of_gt (lt_of_le_of_lt hmv hgt)
    have heq : x.maxVel / v * (x.maxVel / v) * (v * v) = x.maxVel * x.maxVel := by
      field_simp
    rw [heq]
  next hle =>
    rw [← hexact]
    exact mul_self_le_mul_self hpos (le_of_not_lt hle)

/-- Claim C3, amended: the speed clamp of the integration step guarantees
`‖vel‖ ≤ max_vel` immediately after integration (assuming an exact square
root at the clamped value and `max_vel ≥ 0`); the per-frame bound on the
recovered velocity `(pos − prev) · inv_dt` does not hold, because constraint
projection moves `pos` after the clamp by an amount proportional to the
constraint violation, which is unbounded. -/
theorem C3_integrate_speed_clamp (sq : ℚ → ℚ) (c : Cloth) (i : ℕ)
    (hi : i < c.numParticles) (hlen : c.numParticles ≤ c.vel.length)
    (hmv : 0 ≤ c.maxVel) (hk : getQ c.invMass i ≠ 0)
    (hpos : 0 ≤ sq (((getV c.vel i).add (GRAVITY.smul c.dt)).lengthSq))
    (hexact : sq (((getV c.vel i).add (GRAVITY.smul c.dt)).lengthSq)
        * sq (((getV c.vel i).add (GRAVITY.smul c.dt)).lengthSq)
        = ((getV c.vel i).add (GRAVITY.smul c.dt)).lengthSq) :
    (getV (Cloth.integrate sq c).vel i).lengthSq ≤ c.maxVel * c.maxVel := by
  unfold Cloth.integrate
  have hsplit : List.range c.numParticles
      = (List.range i ++ [i]) ++ (List.range (c.numParticles - (i + 1))).map
          (fun m => (i + 1) + m) := by
    rw [← List.range_succ, ← List.range_add]
    congr 1
    omega
  rw [hsplit, List.foldl_append, List.foldl_append]
  simp only [List.foldl_cons, List.foldl_nil]
  have hM0 : ((List.range i).foldl (Cloth.integrateStep sq) c).invMass = c.invMass
      ∧ ((List.range i).foldl (Cloth.integrateStep sq) c).dt = c.dt
      ∧ ((List.range i).foldl (Cloth.integrateStep sq) c).maxVel = c.maxVel
      ∧ ((List.range i).foldl (Cloth.integrateStep sq) c).vel.length = c.vel.length
      ∧ getV ((List.range i).foldl (Cloth.integrateStep sq) c).vel i = getV c.vel i := by
    refine foldl_preserve (P := fun (y : Cloth) => y.invMass = c.invMass ∧ y.dt = c.dt
      ∧ y.maxVel = c.maxVel ∧ y.vel.length = c.vel.length
      ∧ getV y.vel i = getV c.vel i) ?_ ⟨rfl, rfl, rfl, rfl, rfl⟩
    intro y b hb hy
    have hbne : b ≠ i := by
      have := List.mem_range.mp hb
      omega
    obtain ⟨e1, e2, e3, e4, e5⟩ := integrateStep_preserve sq y b i hbne
    exact ⟨e1.trans hy.1, e2.trans hy.2.1, e3.trans hy.2.2.1, e4.trans hy.2.2.2.1,
      e5.trans hy.2.2.2.2⟩
  obtain ⟨f1, f2, f3, f4, f5⟩ := hM0
  refine foldl_preserve
    (P := fun (y : Cloth) => (getV y.vel i).lengthSq ≤ c.maxVel * c.maxVel) ?_ ?_
  · intro y b hb hy
    obtain ⟨m, _, hm⟩ := List.mem_map.mp hb
    have hbne : b ≠ i := by omega
    rw [(integrateStep_preserve sq y b i hbne).2.2.2.2]
    exact hy
  · have := integrateStep_vel_bound sq ((List.range i).foldl (Cloth.integrateStep sq) c) i
      (by rw [f1]; exact hk) (by rw [f4]; exact lt_of_lt_of_le hi hlen)
      (by rw [f3]; exact hmv)
      (by rw [f5, f2]; exact hpos) (by rw [f5, f2]; exact hexact)
    rw [f3] at this
    exact this

/-- Witness for C3: on the one-particle cloth `clothFast`, the velocity
`(0,-2,0)` picks up the gravity kick to `(0,-3,0)` and is clamped back to
speed `max_vel = 2` during integration. -/
theorem C3_witness :
    0 < clothFast.numParticles ∧ clothFast.numParticles ≤ clothFast.vel.length
    ∧ 0 ≤ clothFast.maxVel ∧ getQ clothFast.invMass 0 ≠ 0
    ∧ 0 ≤ ratSqrt (((getV clothFast.vel 0).add (GRAVITY.smul clothFast.dt)).lengthSq)
    ∧ ratSqrt (((getV clothFast.vel 0).add (GRAVITY.smul clothFast.dt)).lengthSq)
        * ratSqrt (((getV clothFast.vel 0).add (GRAVITY.smul clothFast.dt)).lengthSq)
        = ((getV clothFast.vel 0).add (GRAVITY.smul clothFast.dt)).lengthSq
    ∧ (getV (Cloth.integrate ratSqrt clothFast).vel 0).lengthSq
        ≤ clothFast.maxVel * clothFast.maxVel :=
  ⟨by decide, by decide, by decide, by decide, by decide, by decide,
   C3_integrate_speed_clamp ratSqrt clothFast 0 (by decide) (by decide) (by decide)
     (by decide) (by decide) (by decide)⟩

/-- Counterexample for C3: one `simulate()` call on `clothFar` recovers a
velocity of magnitude 59400 on particle 1 — the hard stretch constraint to
the kinematic anchor pulls the particle 99 units within one substep — while
`max_vel = 6/5`, exceeding `max_vel + ε` for any small tolerance. -/
theorem C3_counterexample :
    getQ clothFar.invMass 1 > 0
    ∧ getV (Cloth.simulate ratSqrt [] [] clothFar).vel 1 = ⟨0, -59400, 0⟩
    ∧ (getV (Cloth.simulate ratSqrt [] [] clothFar).vel 1).lengthSq
        = 59400 * 59400
    ∧ (clothFar.maxVel + 1) * (clothFar.maxVel + 1) < 59400 * 59400 :=
  ⟨by decide, by decide, by decide, by decide⟩

theorem getQ_set_add (l : List ℚ) (a i : ℕ) (pm : ℚ) (ha : a < l.length) :
    getQ (l.set a (getQ l a + pm)) i
      = getQ l i + (if a = i then (1 : ℚ) else 0) * pm := by
  by_cases h : a = i
  · subst h
    show (l.set a (getQ l a + pm)).getD a 0 = _
    rw [getD_set_self, if_pos ha, if_pos rfl, one_mul]
  · rw [getQ_set_ne _ _ h, if_neg h, zero_mul, add_zero]

theorem getTetVolume_congr {x y : SoftBody} (t : ℕ) (hp : x.pos = y.pos)
    (ht : x.tetIds = y.tetIds) : x.getTetVolume t = y.getTetVolume t := by
  unfold SoftBody.getTetVolume
  rw [hp, ht]

theorem initTetStep_proj (x : SoftBody) (t : ℕ) :
    (SoftBody.initTetStep x t).pos = x.pos
    ∧ (SoftBody.initTetStep x t).tetIds = x.tetIds
    ∧ (SoftBody.initTetStep x t).restVol = x.restVol.set t (x.getTetVolume t)
    ∧ (SoftBody.initTetStep x t).invMass.length = x.invMass.length := by
  refine ⟨rfl, rfl, rfl, ?_⟩
  simp only [SoftBody.initTetStep, List.length_set]

theorem initTetStep_invMass (x : SoftBody) (t i : ℕ)
    (ha : (x.tetIds.getD t defaultTet).a < x.invMass.length)
    (hb : (x.tetIds.getD t defaultTet).b < x.invMass.length)
    (hc : (x.tetIds.getD t defaultTet).c < x.invMass.length)
    (hd : (x.tetIds.getD t defaultTet).d < x.invMass.length) :
    getQ (SoftBody.initTetStep x t).invMass i
      = getQ x.invMass i + (tetVertexCount (x.tetIds.getD t defaultTet) i : ℚ)
          * (if x.getTetVolume t > 0 then 1 / (x.getTetVolume t / 4) else 0) := by
  simp only [SoftBody.initTetStep]
  rw [getQ_set_add _ _ _ _ (by simp only [List.length_set]; exact hd)]
  rw [getQ_set_add _ _ _ _ (by simp only [List.length_set]; exact hc)]
  rw [getQ_set_add _ _ _ _ (by simp only [List.length_set]; exact hb)]
  rw [getQ_set_add _ _ _ _ ha]
  unfold tetVertexCount
  push_cast
  ring

theorem initTets_aux (s : SoftBody) (hrv : s.numTets ≤ s.restVol.length)
    (htet : ∀ t, t < s.numTets →
      (s.tetIds.getD t defaultTet).a < s.invMass.length
      ∧ (s.tetIds.getD t defaultTet).b < s.invMass.length
      ∧ (s.tetIds.getD t defaultTet).c < s.invMass.length
      ∧ (s.tetIds.getD t defaultTet).d < s.invMass.length) :
    ∀ n, n ≤ s.numTets →
      ((List.range n).foldl SoftBody.initTetStep s).pos = s.pos
      ∧ ((List.range n).foldl SoftBody.initTetStep s).tetIds = s.tetIds
      ∧ ((List.range n).foldl SoftBody.initTetStep s).restVol.length = s.restVol.length
      ∧ ((List.range n).foldl SoftBody.initTetStep s).invMass.length = s.invMass.length
      ∧ (∀ t, t < n → getQ ((List.range n).foldl SoftBody.initTetStep s).restVol t
          = s.getTetVolume t)
      ∧ (∀ i, getQ ((List.range n).foldl SoftBody.initTetStep s).invMass i
          = getQ s.invMass i + ∑ t in Finset.range n,
              (tetVertexCount (s.tetIds.getD t defaultTet) i : ℚ) * tetContribution s t) := by
  intro n
  induction n with
  | zero =>
    intro _
    exact ⟨rfl, rfl, rfl, rfl, fun t ht => absurd ht (Nat.not_lt_zero t),
      fun i => by rw [Finset.sum_range_zero, add_zero]; rfl⟩
  | succ n ih =>
    intro hn
    have hn' : n ≤ s.numTets := Nat.le_of_succ_le hn
    obtain ⟨e1, e2, e3, e4, e5, e6⟩ := ih hn'
    rw [List.range_succ, List.foldl_append]
    simp only [List.foldl_cons, List.foldl_nil]
    obtain ⟨p1, p2, p3, p4⟩ :=
      initTetStep_proj ((List.range n).foldl SoftBody.initTetStep s) n
    have hvolc : ((List.range n).foldl SoftBody.initTetStep s).getTetVolume n
        = s.getTetVolume n := getTetVolume_congr n e1 e2
    have htid : ((List.range n).foldl SoftBody.initTetStep s).tetIds.getD n defaultTet
        = s.tetIds.getD n defaultTet := by rw [e2]
    refine ⟨p1.trans e1, p2.trans e2, ?_, p4.trans e4, ?_, ?_⟩
    · rw [p3, List.length_set]
      exact e3
    · intro t ht
      rw [p3]
      by_cases hteq : t = n
      · subst hteq
        show (_ : List ℚ).getD t 0 = _
        rw [getD_set_self, if_pos (by rw [e3]; exact lt_of_lt_of_le hn hrv), hvolc]
      · have hlt : t < n := Nat.lt_of_le_of_ne (Nat.lt_succ_iff.mp ht)
          hteq
        rw [show getQ (((List.range n).foldl SoftBody.initTetStep s).restVol.set n
            (((List.range n).foldl SoftBody.initTetStep s).getTetVolume n)) t
            = getQ ((List.range n).foldl SoftBody.initTetStep s).restVol t from
          getD_set_ne _ _ _ (fun h => hteq h.symm)]
        exact e5 t hlt
    · intro i
      have hb := htet n (lt_of_lt_of_le (Nat.lt_succ_self n) hn)
      have hstep := initTetStep_invMass ((List.range n).foldl SoftBody.initTetStep s) n i
        (by rw [htid, e4]; exact hb.1) (by rw [htid, e4]; exact hb.2.1)
        (by rw [htid, e4]; exact hb.2.2.1) (by rw [htid, e4]; exact hb.2.2.2)
      rw [hstep, htid, hvolc, e6 i, Finset.sum_range_succ]
      have hpm : (if s.getTetVolume n > 0 then 1 / (s.getTetVolume n / 4) else 0)
          = tetContribution s n := by
        unfold tetContribution
        split
        · rw [one_div_div]
        · rfl
      rw [hpm, add_assoc]

theorem initEdges_preserve (sq : ℚ → ℚ) (x : SoftBody) (l : List ℕ) :
    (l.foldl (SoftBody.initEdgeStep sq) x).restVol = x.restVol
    ∧ (l.foldl (SoftBody.initEdgeStep sq) x).invMass = x.invMass :=
  foldl_preserve
    (P := fun (y : SoftBody) => y.restVol = x.restVol ∧ y.invMass = x.invMass)
    (fun _ _ _ hy => ⟨hy.1, hy.2⟩) ⟨rfl, rfl⟩

/-- Claim C9: `SoftBody::init` records each tet's signed rest volume
(`get_tet_volume` at the initial positions) and adds `1 / (vol / 4) = 4/vol`
to the inverse mass of each of the tet's four vertex slots when the volume
is strictly positive, and adds nothing otherwise; the final inverse mass of
particle `i` is its initial value plus the multiplicity-weighted sum of
these contributions over all tets. -/
theorem C9_init_mass_distribution (sq : ℚ → ℚ) (s : SoftBody)
    (hrv : s.numTets ≤ s.restVol.length)
    (htet : ∀ t, t < s.numTets →
      (s.tetIds.getD t defaultTet).a < s.invMass.length
      ∧ (s.tetIds.getD t defaultTet).b < s.invMass.length
      ∧ (s.tetIds.getD t defaultTet).c < s.invMass.length
      ∧ (s.tetIds.getD t defaultTet).d < s.invMass.length) :
    (∀ t, t < s.numTets →
      getQ (SoftBody.init sq s).restVol t = s.getTetVolume t)
    ∧ (∀ i, getQ (SoftBody.init sq s).invMass i
        = getQ s.invMass i + ∑ t in Finset.range s.numTets,
            (tetVertexCount (s.tetIds.getD t defaultTet) i : ℚ) * tetContribution s t) := by
  unfold SoftBody.init
  obtain ⟨g1, g2⟩ := initEdges_preserve sq ((List.range s.numTets).foldl SoftBody.initTetStep s)
    (List.range ((List.range s.numTets).foldl SoftBody.initTetStep s).edgeLens.length)
  obtain ⟨_, _, _, _, a5, a6⟩ := initTets_aux s hrv htet s.numTets (le_refl _)
  constructor
  · intro t ht
    rw [g1]
    exact a5 t ht
  · intro i
    rw [g2]
    exact a6 i

/-- Witness for C9: on the four-vertex soft body with one unit tet
(volume `1/6`) and one degenerate tet, `init` records rest volumes `1/6`
and `0` and gives vertex 0 inverse mass `24 = 4 / (1/6)`. -/
theorem C9_witness :
    softTet.numTets ≤ softTet.restVol.length
    ∧ (∀ t, t < softTet.numTets →
        (softTet.tetIds.getD t defaultTet).a < softTet.invMass.length
        ∧ (softTet.tetIds.getD t defaultTet).b < softTet.invMass.length
        ∧ (softTet.tetIds.getD t defaultTet).c < softTet.invMass.length
        ∧ (softTet.tetIds.getD t defaultTet).d < softTet.invMass.length)
    ∧ getQ (SoftBody.init ratSqrt softTet).restVol 0 = softTet.getTetVolume 0
    ∧ getQ (SoftBody.init ratSqrt softTet).invMass 0
        = getQ softTet.invMass 0 + ∑ t in Finset.range softTet.numTets,
            (tetVertexCount (softTet.tetIds.getD t defaultTet) 0 : ℚ)
              * tetContribution softTet t
    ∧ getQ (SoftBody.init ratSqrt softTet).invMass 0 = 24
    ∧ getQ (SoftBody.init ratSqrt softTet).restVol 0 = mkRat 1 6
    ∧ getQ (SoftBody.init ratSqrt softTet).restVol 1 = 0 := by
  have h := C9_init_mass_distribution ratSqrt softTet (by decide)
    (by decide)
  exact ⟨by decide, by decide, h.1 0 (by decide), h.2 0, by decide, by decide, by decide⟩

end XPBD
